import Mathlib

/-
Verification of the natural-language specification of this PipeWire snapshot
against a shallow embedding of the C sources:
  src/src/modules/module-protocol-native.c
  src/spa/plugins/alsa/alsa-utils.c
  src/src/modules/module-session-manager/endpoint.c
  src/src/modules/module-session-manager/session.c
Pure control-flow and data manipulation is translated into executable Lean
definitions; kernel interactions (ALSA calls, sockets, poll) appear as oracle
inputs describing the values they return.
-/

/- Errno constants (Linux ABI). -/

def EINVAL : Int := 22

def EACCES : Int := 13

def EAGAIN : Int := 11

def ENOMEM : Int := 12

/- SPA io event flags. Modelled from the spec: the spa headers are not under
src/; the flags are an abstract bit set and only their distinctness matters. -/

def SPA_IO_IN : Nat := 1

def SPA_IO_OUT : Nat := 2

def SPA_IO_HUP : Nat := 4

def SPA_IO_ERR : Nat := 8

/- Permission bits. Modelled from the spec: the pipewire/permission header is
not under src/; the spec names permission bits R, W, X, and process_messages
only uses that PW_PERM_X is one fixed bit. -/

def PW_PERM_R : Nat := 4

def PW_PERM_W : Nat := 2

def PW_PERM_X : Nat := 1

/-! ## C1: the server dispatch loop of module-protocol-native.c
(process_messages, lines 111-190). -/

/-- One method entry of a marshal vtable: required permission bits and whether
the demarshal function pointer is non-NULL. -/
structure Method where
  permissions : Nat
  hasFunc : Bool
  deriving Repr, DecidableEq

/-- A resource registered on the client: id, permission bits and its marshal
(method vtable); hasMarshal models pw_resource_get_marshal returning non-NULL,
methods.length models marshal->n_methods. -/
structure Resource where
  id : Nat
  permissions : Nat
  hasMarshal : Bool
  methods : List Method
  deriving Repr, DecidableEq

/-- One incoming frame. demarshalRet and setsBusy are oracles for what the
method demarshaller would do when invoked on this frame. -/
structure Frame where
  id : Nat
  opcode : Nat
  seq : Nat
  demarshalRet : Int
  setsBusy : Bool
  deriving Repr, DecidableEq

structure ClientState where
  resources : List Resource
  busy : Bool
  recvSeq : Nat
  destroyed : Bool
  deriving Repr, DecidableEq

/-- Observable effects of the dispatch loop. errorReply is pw_resource_error on
the looked-up resource; coreErrorReply is pw_resource_error on
client->core_resource (the missing-resource path). -/
inductive PEvent where
  | errorReply (resourceId : Nat) (errno : Int)
  | coreErrorReply (errno : Int)
  | destroyClient
  | invoke (id opcode : Nat)
  deriving Repr, DecidableEq

def findResource (rs : List Resource) (id : Nat) : Option Resource :=
  rs.find? (fun r => r.id == id)

/-- One iteration of the while loop of process_messages: returns the new state,
the events emitted, and whether the loop moves on to the next frame (false on
the invalid_method / invalid_message paths, which destroy the client). -/
def processStep (st : ClientState) (msg : Frame) : ClientState × List PEvent × Bool :=
  let st := { st with recvSeq := msg.seq }
  match findResource st.resources msg.id with
  | none => (st, [PEvent.coreErrorReply (-EINVAL)], true)
  | some resource =>
    if ¬resource.hasMarshal ∨ resource.methods.length ≤ msg.opcode then
      ({ st with destroyed := true },
        [PEvent.errorReply resource.id (-EINVAL), PEvent.destroyClient], false)
    else
      match resource.methods[msg.opcode]? with
      | none => (st, [], false)
      | some m =>
        if ¬m.hasFunc then
          ({ st with destroyed := true },
            [PEvent.errorReply resource.id (-EINVAL), PEvent.destroyClient], false)
        else
          let required := m.permissions ||| PW_PERM_X
          if required &&& resource.permissions ≠ required then
            (st, [PEvent.errorReply resource.id (-EACCES)], true)
          else
            if msg.demarshalRet < 0 then
              ({ st with destroyed := true },
                [PEvent.invoke msg.id msg.opcode,
                 PEvent.errorReply resource.id (-EINVAL), PEvent.destroyClient], false)
            else
              ({ st with busy := msg.setsBusy },
                [PEvent.invoke msg.id msg.opcode], true)

/-- process_messages: drain the queued frames while the client is not busy. -/
def processMessages (st : ClientState) : List Frame → ClientState × List PEvent
  | [] => (st, [])
  | msg :: rest =>
    if st.busy then (st, [])
    else
      match processStep st msg with
      | (st2, evs, cont) =>
        if cont then
          let r := processMessages st2 rest
          (r.1, evs ++ r.2)
        else (st2, evs)

/-! ## C3: flush handling (connection_data lines 214-247, on_before_hook lines
720-744). pw_protocol_native_connection_flush lives in connection.c which is
not under src/. -/

/-- Modelled from the spec: the wire connection flush of connection.c (not under
src/) attempts a non-blocking writev and returns "again" on a partial write;
following the error convention of this codebase (spa_strerror on results,
on_before_hook comparing against -EAGAIN) a partial write is the negative
errno -EAGAIN, a drain is a result >= 0 and any other error is another
negative errno. The oracle value flushRes is that return value. -/
structure ConnIoState where
  ioMask : Nat
  destroyed : Bool
  deriving Repr, DecidableEq

/-- The io handler connection_data of a server-side client, restricted to the
HUP/ERR/OUT branches (the IN branch runs process_messages, modelled above).
Note the source compares the flush result against positive EAGAIN. -/
def connection_data (st : ConnIoState) (mask : Nat) (flushRes : Int) : ConnIoState :=
  if mask &&& SPA_IO_HUP ≠ 0 then { st with destroyed := true }
  else if mask &&& SPA_IO_ERR ≠ 0 then { st with destroyed := true }
  else if mask &&& SPA_IO_OUT ≠ 0 then
    if flushRes ≥ 0 then { st with ioMask := st.ioMask &&& (15 ^^^ SPA_IO_OUT) }
    else if flushRes ≠ EAGAIN then { st with destroyed := true }
    else st
  else st

/-- The per-client body of on_before_hook: flush, arm IO_OUT on -EAGAIN,
destroy the client on any other negative result. -/
def on_before_hook_client (st : ConnIoState) (flushRes : Int) : ConnIoState :=
  if flushRes = -EAGAIN then { st with ioMask := st.ioMask ||| SPA_IO_OUT }
  else if flushRes < 0 then { st with destroyed := true }
  else st

/-! ## C6: lock_socket (lines 366-392), add_socket, destroy_server (697-718)
and impl_add_server (765-806) of module-protocol-native.c. -/

/-- Oracle outcomes of the system calls made while creating a server. -/
structure SrvEnv where
  haveRuntimeDir : Bool
  nameFits : Bool
  openLockOk : Bool
  flockOk : Bool
  activationFd : Bool
  socketOk : Bool
  bindOk : Bool
  listenOk : Bool
  addIoOk : Bool
  deriving Repr, DecidableEq

structure Server where
  fd_lock : Int
  sun_path : String
  lock_addr : String
  activated : Bool
  hasSource : Bool
  deriving Repr, DecidableEq

inductive SrvEvent where
  | openLock
  | flockTry
  | bindSocket
  | listenSocket
  | unlinkPath (p : String)
  | closeLockFd
  deriving Repr, DecidableEq

/-- init_socket_name: build sun_path from XDG_RUNTIME_DIR and the core name;
on overflow the path is cleared and false is returned. -/
def init_socket_name (env : SrvEnv) (s : Server) (name : String) : Server × Bool :=
  if ¬env.haveRuntimeDir then (s, false)
  else if ¬env.nameFits then ({ s with sun_path := "" }, false)
  else ({ s with sun_path := "/run/user/u/" ++ name }, true)

/-- lock_socket: open the sidecar lock file, take an exclusive non-blocking
flock; on either failure clear both paths (and close the lock fd if open). -/
def lock_socket (env : SrvEnv) (s : Server) : Server × Bool × List SrvEvent :=
  let s := { s with lock_addr := s.sun_path ++ ".lock" }
  if ¬env.openLockOk then
    ({ s with lock_addr := "", sun_path := "" }, false, [SrvEvent.openLock])
  else if ¬env.flockOk then
    ({ s with fd_lock := -1, lock_addr := "", sun_path := "" }, false,
      [SrvEvent.openLock, SrvEvent.flockTry, SrvEvent.closeLockFd])
  else
    ({ s with fd_lock := 7 }, true, [SrvEvent.openLock, SrvEvent.flockTry])

/-- add_socket: adopt an activation fd if one matches, else socket + bind +
listen; then install the io source. -/
def add_socket (env : SrvEnv) (s : Server) : Server × Bool × List SrvEvent :=
  if env.activationFd then
    let s := { s with activated := true }
    if env.addIoOk then ({ s with hasSource := true }, true, [])
    else (s, false, [])
  else
    if ¬env.socketOk then (s, false, [])
    else if ¬env.bindOk then (s, false, [SrvEvent.bindSocket])
    else if ¬env.listenOk then (s, false, [SrvEvent.bindSocket, SrvEvent.listenSocket])
    else
      let s := { s with activated := false }
      if env.addIoOk then
        ({ s with hasSource := true }, true, [SrvEvent.bindSocket, SrvEvent.listenSocket])
      else (s, false, [SrvEvent.bindSocket, SrvEvent.listenSocket])

/-- destroy_server: unlink the socket path unless empty or externally
activated, unlink the lock path unless empty, close the lock fd unless -1. -/
def destroy_server (s : Server) : List SrvEvent :=
  (if s.sun_path ≠ "" ∧ ¬s.activated then [SrvEvent.unlinkPath s.sun_path] else [])
  ++ (if s.lock_addr ≠ "" then [SrvEvent.unlinkPath s.lock_addr] else [])
  ++ (if s.fd_lock ≠ -1 then [SrvEvent.closeLockFd] else [])

/-- impl_add_server: calloc a server with fd_lock = -1, then name, lock and
socket setup in that order; any failure tears the partial server down with
destroy_server. Returns the server on success and the event trace. -/
def impl_add_server (env : SrvEnv) (name : String) : Option Server × List SrvEvent :=
  let s : Server := { fd_lock := -1, sun_path := "", lock_addr := "",
                      activated := false, hasSource := false }
  match init_socket_name env s name with
  | (s, false) => (none, destroy_server s)
  | (s, true) =>
    match lock_socket env s with
    | (s, false, evs) => (none, evs ++ destroy_server s)
    | (s, true, evs) =>
      match add_socket env s with
      | (s, false, evs2) => (none, evs ++ evs2 ++ destroy_server s)
      | (s, true, evs2) => (some s, evs ++ evs2)

/-! ## C2 / C7 / C10: the ALSA format table, spa_format_to_alsa and
spa_alsa_enum_format / spa_alsa_set_format of alsa-utils.c. -/

/- Audio format codes. Modelled from the spec: spa/param/audio/raw.h is not
under src/; the spec (section 3, Sample frame) lists interleaved and planar
variants as distinct members of one format enumeration, so the interleaved
block and the planar block are disjoint ranges of distinct codes. -/

def SPA_AUDIO_FORMAT_UNKNOWN : Nat := 0

def SPA_AUDIO_FORMAT_S8 : Nat := 0x101
def SPA_AUDIO_FORMAT_U8 : Nat := 0x102
def SPA_AUDIO_FORMAT_S16_LE : Nat := 0x103
def SPA_AUDIO_FORMAT_S16_BE : Nat := 0x104
def SPA_AUDIO_FORMAT_U16_LE : Nat := 0x105
def SPA_AUDIO_FORMAT_U16_BE : Nat := 0x106
def SPA_AUDIO_FORMAT_S24_32_LE : Nat := 0x107
def SPA_AUDIO_FORMAT_S24_32_BE : Nat := 0x108
def SPA_AUDIO_FORMAT_U24_32_LE : Nat := 0x109
def SPA_AUDIO_FORMAT_U24_32_BE : Nat := 0x10a
def SPA_AUDIO_FORMAT_S32_LE : Nat := 0x10b
def SPA_AUDIO_FORMAT_S32_BE : Nat := 0x10c
def SPA_AUDIO_FORMAT_U32_LE : Nat := 0x10d
def SPA_AUDIO_FORMAT_U32_BE : Nat := 0x10e
def SPA_AUDIO_FORMAT_S24_LE : Nat := 0x10f
def SPA_AUDIO_FORMAT_S24_BE : Nat := 0x110
def SPA_AUDIO_FORMAT_U24_LE : Nat := 0x111
def SPA_AUDIO_FORMAT_U24_BE : Nat := 0x112
def SPA_AUDIO_FORMAT_F32_LE : Nat := 0x113
def SPA_AUDIO_FORMAT_F32_BE : Nat := 0x114
def SPA_AUDIO_FORMAT_F64_LE : Nat := 0x115
def SPA_AUDIO_FORMAT_F64_BE : Nat := 0x116

def SPA_AUDIO_FORMAT_U8P : Nat := 0x201
def SPA_AUDIO_FORMAT_S16P : Nat := 0x202
def SPA_AUDIO_FORMAT_S24_32P : Nat := 0x203
def SPA_AUDIO_FORMAT_S32P : Nat := 0x204
def SPA_AUDIO_FORMAT_S24P : Nat := 0x205
def SPA_AUDIO_FORMAT_F32P : Nat := 0x206
def SPA_AUDIO_FORMAT_F64P : Nat := 0x207

/- ALSA pcm format codes (stable ALSA ABI values; alsa headers are external).
SND_PCM_FORMAT_UNKNOWN is -1. -/

def SND_PCM_FORMAT_UNKNOWN : Int := -1

def SND_PCM_FORMAT_S8 : Int := 0
def SND_PCM_FORMAT_U8 : Int := 1
def SND_PCM_FORMAT_S16_LE : Int := 2
def SND_PCM_FORMAT_S16_BE : Int := 3
def SND_PCM_FORMAT_U16_LE : Int := 4
def SND_PCM_FORMAT_U16_BE : Int := 5
def SND_PCM_FORMAT_S24_LE : Int := 6
def SND_PCM_FORMAT_S24_BE : Int := 7
def SND_PCM_FORMAT_U24_LE : Int := 8
def SND_PCM_FORMAT_U24_BE : Int := 9
def SND_PCM_FORMAT_S32_LE : Int := 10
def SND_PCM_FORMAT_S32_BE : Int := 11
def SND_PCM_FORMAT_U32_LE : Int := 12
def SND_PCM_FORMAT_U32_BE : Int := 13
def SND_PCM_FORMAT_FLOAT_LE : Int := 14
def SND_PCM_FORMAT_FLOAT_BE : Int := 15
def SND_PCM_FORMAT_FLOAT64_LE : Int := 16
def SND_PCM_FORMAT_FLOAT64_BE : Int := 17
def SND_PCM_FORMAT_S24_3LE : Int := 32
def SND_PCM_FORMAT_S24_3BE : Int := 33
def SND_PCM_FORMAT_U24_3LE : Int := 34
def SND_PCM_FORMAT_U24_3BE : Int := 35

/-- One row of the static format_info table of alsa-utils.c. -/
structure FormatInfo where
  spa_format : Nat
  spa_pformat : Nat
  format : Int
  deriving Repr, DecidableEq

/-- The format_info table (alsa-utils.c lines 67-91), in source order. -/
def format_info : List FormatInfo :=
  [ ⟨SPA_AUDIO_FORMAT_UNKNOWN, SPA_AUDIO_FORMAT_UNKNOWN, SND_PCM_FORMAT_UNKNOWN⟩,
    ⟨SPA_AUDIO_FORMAT_F32_LE, SPA_AUDIO_FORMAT_F32P, SND_PCM_FORMAT_FLOAT_LE⟩,
    ⟨SPA_AUDIO_FORMAT_F32_BE, SPA_AUDIO_FORMAT_F32P, SND_PCM_FORMAT_FLOAT_BE⟩,
    ⟨SPA_AUDIO_FORMAT_S32_LE, SPA_AUDIO_FORMAT_S32P, SND_PCM_FORMAT_S32_LE⟩,
    ⟨SPA_AUDIO_FORMAT_S32_BE, SPA_AUDIO_FORMAT_S32P, SND_PCM_FORMAT_S32_BE⟩,
    ⟨SPA_AUDIO_FORMAT_S24_32_LE, SPA_AUDIO_FORMAT_S24_32P, SND_PCM_FORMAT_S24_LE⟩,
    ⟨SPA_AUDIO_FORMAT_S24_32_BE, SPA_AUDIO_FORMAT_S24_32P, SND_PCM_FORMAT_S24_BE⟩,
    ⟨SPA_AUDIO_FORMAT_S16_LE, SPA_AUDIO_FORMAT_S16P, SND_PCM_FORMAT_S16_LE⟩,
    ⟨SPA_AUDIO_FORMAT_S16_BE, SPA_AUDIO_FORMAT_S16P, SND_PCM_FORMAT_S16_BE⟩,
    ⟨SPA_AUDIO_FORMAT_S24_LE, SPA_AUDIO_FORMAT_S24P, SND_PCM_FORMAT_S24_3LE⟩,
    ⟨SPA_AUDIO_FORMAT_S24_BE, SPA_AUDIO_FORMAT_S24P, SND_PCM_FORMAT_S24_3BE⟩,
    ⟨SPA_AUDIO_FORMAT_S8, SPA_AUDIO_FORMAT_UNKNOWN, SND_PCM_FORMAT_S8⟩,
    ⟨SPA_AUDIO_FORMAT_U8, SPA_AUDIO_FORMAT_U8P, SND_PCM_FORMAT_U8⟩,
    ⟨SPA_AUDIO_FORMAT_U16_LE, SPA_AUDIO_FORMAT_UNKNOWN, SND_PCM_FORMAT_U16_LE⟩,
    ⟨SPA_AUDIO_FORMAT_U16_BE, SPA_AUDIO_FORMAT_UNKNOWN, SND_PCM_FORMAT_U16_BE⟩,
    ⟨SPA_AUDIO_FORMAT_U24_32_LE, SPA_AUDIO_FORMAT_UNKNOWN, SND_PCM_FORMAT_U24_LE⟩,
    ⟨SPA_AUDIO_FORMAT_U24_32_BE, SPA_AUDIO_FORMAT_UNKNOWN, SND_PCM_FORMAT_U24_BE⟩,
    ⟨SPA_AUDIO_FORMAT_U24_LE, SPA_AUDIO_FORMAT_UNKNOWN, SND_PCM_FORMAT_U24_3LE⟩,
    ⟨SPA_AUDIO_FORMAT_U24_BE, SPA_AUDIO_FORMAT_UNKNOWN, SND_PCM_FORMAT_U24_3BE⟩,
    ⟨SPA_AUDIO_FORMAT_U32_LE, SPA_AUDIO_FORMAT_UNKNOWN, SND_PCM_FORMAT_U32_LE⟩,
    ⟨SPA_AUDIO_FORMAT_U32_BE, SPA_AUDIO_FORMAT_UNKNOWN, SND_PCM_FORMAT_U32_BE⟩,
    ⟨SPA_AUDIO_FORMAT_F64_LE, SPA_AUDIO_FORMAT_F64P, SND_PCM_FORMAT_FLOAT64_LE⟩,
    ⟨SPA_AUDIO_FORMAT_F64_BE, SPA_AUDIO_FORMAT_F64P, SND_PCM_FORMAT_FLOAT64_BE⟩ ]

/-- spa_format_to_alsa (alsa-utils.c lines 93-102): first table row whose
spa_format column matches, else SND_PCM_FORMAT_UNKNOWN. -/
def spa_format_to_alsa (format : Nat) : Int :=
  match format_info.find? (fun fi => fi.spa_format == format) with
  | some fi => fi.format
  | none => SND_PCM_FORMAT_UNKNOWN

/-- Device capabilities as returned by the ALSA hw_params queries in
spa_alsa_enum_format (oracle data standing for the snd_pcm_hw_params calls,
which are assumed to succeed). -/
structure AlsaCaps where
  fmask : List Int
  accessInterleaved : Bool
  accessNonInterleaved : Bool
  rateMin : Nat
  rateMax : Nat
  chMin : Nat
  chMax : Nat
  deriving Repr, DecidableEq

/-- The format-choice building loop of spa_alsa_enum_format (lines 274-290):
walk format_info from row 1; for a supported format push the interleaved code
when MMAP_INTERLEAVED is in the access mask and the planar code when
MMAP_NONINTERLEAVED is and the planar code is not UNKNOWN; the first value
pushed is duplicated (the default value of the choice). -/
def fmt_loop (caps : AlsaCaps) : List FormatInfo → Nat → List Nat
  | [], _ => []
  | fi :: rest, j =>
    if caps.fmask.contains fi.format then
      let out1 : List Nat :=
        if caps.accessInterleaved then
          if j = 0 then [fi.spa_format, fi.spa_format] else [fi.spa_format]
        else []
      let j1 := if caps.accessInterleaved then j + 1 else j
      let out2 : List Nat :=
        if caps.accessNonInterleaved ∧ fi.spa_pformat ≠ SPA_AUDIO_FORMAT_UNKNOWN then
          if j1 = 0 then [fi.spa_pformat, fi.spa_pformat] else [fi.spa_pformat]
        else []
      let j2 := if caps.accessNonInterleaved ∧ fi.spa_pformat ≠ SPA_AUDIO_FORMAT_UNKNOWN
        then j1 + 1 else j1
      out1 ++ out2 ++ fmt_loop caps rest j2
    else fmt_loop caps rest j

/-- The format values written into the format choice of the index-0 result
descriptor of spa_alsa_enum_format. -/
def build_format_values (caps : AlsaCaps) : List Nat :=
  fmt_loop caps (format_info.drop 1) 0

/- Default preferences. Modelled from the spec: DEFAULT_RATE / DEFAULT_CHANNELS
come from alsa-utils.h which is not under src/ (spec section 4.1 names them as
the preferred values). -/

def DEFAULT_RATE : Nat := 44100

def DEFAULT_CHANNELS : Nat := 2

def SPA_CLAMP (v lo hi : Nat) : Nat := max lo (min v hi)

/-- The composite result descriptor spa_alsa_enum_format builds for index 0. -/
structure FormatDesc where
  formats : List Nat
  rateDefault : Nat
  rateRange : Option (Nat × Nat)
  channelsDefault : Nat
  channelsRange : Option (Nat × Nat)
  deriving Repr, DecidableEq

def buildDesc (caps : AlsaCaps) : FormatDesc :=
  { formats := build_format_values caps,
    rateDefault := SPA_CLAMP DEFAULT_RATE caps.rateMin caps.rateMax,
    rateRange := if caps.rateMin ≠ caps.rateMax then some (caps.rateMin, caps.rateMax) else none,
    channelsDefault := SPA_CLAMP DEFAULT_CHANNELS caps.chMin caps.chMax,
    channelsRange := if caps.chMin ≠ caps.chMax then some (caps.chMin, caps.chMax) else none }

/-- The goto-next enumeration loop of spa_alsa_enum_format (lines 248-372) with
the chmap path compiled out (the if (false) at line 317): each iteration
rebuilds the descriptor; an index greater than 0 reaches the channels branch
and jumps to enum_end; index 0 runs the filter (filterOk oracle) and either
emits or retries with the next index. Returns the emitted (index, descriptor)
pairs; the C return value is 0 on every path modelled here. -/
def enum_loop (caps : AlsaCaps) (filterOk : FormatDesc → Bool) (num : Nat) :
    Nat → Nat → List (Nat × FormatDesc)
  | next, count =>
    if next > 0 then []
    else
      let d := buildDesc caps
      if ¬filterOk d then enum_loop caps filterOk num (next + 1) count
      else
        (next, d) ::
          (if count + 1 ≠ num then enum_loop caps filterOk num (next + 1) (count + 1) else [])
  termination_by next _ => 1 - next
  decreasing_by
    all_goals omega

/-- spa_alsa_enum_format: emitted results for a call with the given start. -/
def spa_alsa_enum_format (caps : AlsaCaps) (filterOk : FormatDesc → Bool)
    (start num : Nat) : List (Nat × FormatDesc) :=
  enum_loop caps filterOk num start 0

/-- The row sets feeding the two kinds of emitted format codes. -/
def interleavedEmitted (caps : AlsaCaps) : List Nat :=
  ((format_info.drop 1).filter
    (fun fi => caps.fmask.contains fi.format && caps.accessInterleaved)).map
    (fun fi => fi.spa_format)

def planarEmitted (caps : AlsaCaps) : List Nat :=
  ((format_info.drop 1).filter
    (fun fi => caps.fmask.contains fi.format && caps.accessNonInterleaved
      && fi.spa_pformat != SPA_AUDIO_FORMAT_UNKNOWN)).map
    (fun fi => fi.spa_pformat)

/-! ## C7: spa_alsa_set_format (alsa-utils.c lines 375-457), the format /
channels / rate negotiation part. -/

/- SPA_NODE_PARAM_FLAG_NEAREST. Modelled from the spec: the spa node header is
not under src/; only that NEAREST is one fixed flag bit matters. -/

def SPA_NODE_PARAM_FLAG_NEAREST : Nat := 2

structure AudioInfoRaw where
  format : Nat
  rate : Nat
  channels : Nat
  deriving Repr, DecidableEq

/-- Oracle results of the set_channels_near / set_rate_near device calls: the
counts the device actually grants. -/
structure NearGrant where
  grantedChannels : Nat
  grantedRate : Nat
  deriving Repr, DecidableEq

/-- The rate step of spa_alsa_set_format (lines 425-434): set_rate_near grants
rrate; a mismatch is accepted (overwriting info) only under NEAREST. -/
def set_format_rate (info : AudioInfoRaw) (flags : Nat) (dev : NearGrant) :
    Except Int AudioInfoRaw :=
  let rrate := dev.grantedRate
  if rrate ≠ info.rate then
    if flags &&& SPA_NODE_PARAM_FLAG_NEAREST ≠ 0 then
      Except.ok { info with rate := rrate }
    else Except.error (-EINVAL)
  else Except.ok info

/-- The channels step of spa_alsa_set_format (lines 414-423) followed by the
rate step. -/
def set_format_channels (info : AudioInfoRaw) (flags : Nat) (dev : NearGrant) :
    Except Int AudioInfoRaw :=
  let rchannels := dev.grantedChannels
  if rchannels ≠ info.channels then
    if flags &&& SPA_NODE_PARAM_FLAG_NEAREST ≠ 0 then
      set_format_rate { info with channels := rchannels } flags dev
    else Except.error (-EINVAL)
  else set_format_rate info flags dev

/-- spa_alsa_set_format, from the format lookup (line 404) through the rate
negotiation: unknown spa format fails with -EINVAL, then channels and rate are
negotiated; on success the possibly rewritten info is returned. -/
def spa_alsa_set_format (info : AudioInfoRaw) (flags : Nat) (dev : NearGrant) :
    Except Int AudioInfoRaw :=
  let format := spa_format_to_alsa info.format
  if format = SND_PCM_FORMAT_UNKNOWN then Except.error (-EINVAL)
  else set_format_channels info flags dev

/-! ## C8: the early-wakeup branches of handle_play (alsa-utils.c lines
839-883) and alsa_on_capture_timeout_event (lines 898-960). -/

def SPA_NSEC_PER_SEC : Nat := 1000000000

/-- The per-device state fields the timeout handlers consult. positionSize is
position->size when state->position is non-NULL. delay is the oracle result of
get_status (device-buffered frames for playback, available frames for
capture), a signed snd_pcm_sframes_t. -/
structure TimeoutState where
  threshold : Nat
  rate : Nat
  positionSize : Option Nat
  next_time : Nat
  sample_count : Nat
  deriving Repr, DecidableEq

/-- What a timeout handler did: an early wakeup only reschedules, otherwise
the handler goes on to update_time and the transfer. -/
inductive TimeoutAction where
  | earlyWakeup
  | transfer
  deriving Repr, DecidableEq

/-- handle_play up to the early-wakeup decision: refresh threshold from
position->size, then if delay >= threshold * 2 reschedule for
now + (threshold / 2) * NSEC_PER_SEC / rate without transferring. -/
def handle_play (st : TimeoutState) (nsec : Nat) (delay : Int) :
    TimeoutAction × TimeoutState :=
  let st := match st.positionSize with
    | some sz => if st.threshold ≠ sz then { st with threshold := sz } else st
    | none => st
  if delay ≥ (st.threshold : Int) * 2 then
    (TimeoutAction.earlyWakeup,
      { st with next_time := nsec + st.threshold / 2 * SPA_NSEC_PER_SEC / st.rate })
  else (TimeoutAction.transfer, st)

/-- alsa_on_capture_timeout_event up to the early-wakeup decision: refresh
threshold from position->size, then if delay < threshold reschedule for
now + (threshold - delay) * NSEC_PER_SEC / rate without reading. -/
def handle_capture (st : TimeoutState) (nsec : Nat) (delay : Int) :
    TimeoutAction × TimeoutState :=
  let st := match st.positionSize with
    | some sz => { st with threshold := sz }
    | none => st
  if delay < (st.threshold : Int) then
    (TimeoutAction.earlyWakeup,
      { st with next_time :=
          nsec + (((st.threshold : Int) - delay) * (SPA_NSEC_PER_SEC : Int) / (st.rate : Int)).toNat })
  else (TimeoutAction.transfer, st)

/-! ## C9: endpoint_update (endpoint.c lines 159-232), session_update
(session.c lines 172-232) and the bind handlers. -/

/- Change-mask bits. Modelled from the spec: extensions/session-manager.h is
not under src/; the bits are an abstract set of distinct flags named by the
spec (streams, session, props, params for endpoints; props, params for
sessions), with ALL their union. -/

def PW_CLIENT_ENDPOINT_UPDATE_PARAMS : Nat := 1

def PW_CLIENT_ENDPOINT_UPDATE_INFO : Nat := 2

def PW_ENDPOINT_CHANGE_MASK_STREAMS : Nat := 1

def PW_ENDPOINT_CHANGE_MASK_SESSION : Nat := 2

def PW_ENDPOINT_CHANGE_MASK_PROPS : Nat := 4

def PW_ENDPOINT_CHANGE_MASK_PARAMS : Nat := 8

def PW_ENDPOINT_CHANGE_MASK_ALL : Nat := 15

def PW_CLIENT_SESSION_UPDATE_PARAMS : Nat := 1

def PW_CLIENT_SESSION_UPDATE_INFO : Nat := 2

def PW_SESSION_CHANGE_MASK_PROPS : Nat := 1

def PW_SESSION_CHANGE_MASK_PARAMS : Nat := 2

def PW_SESSION_CHANGE_MASK_ALL : Nat := 3

/-- Property dictionaries (pw_properties) as key/value association lists;
pw_properties_update sets every source item in the destination. -/
def props_set (dst : List (Nat × Nat)) (kv : Nat × Nat) : List (Nat × Nat) :=
  if dst.any (fun e => e.1 == kv.1) then
    dst.map (fun e => if e.1 == kv.1 then kv else e)
  else dst ++ [kv]

def props_update (dst src : List (Nat × Nat)) : List (Nat × Nat) :=
  src.foldl props_set dst

/-- The pw_endpoint_info record stored on the endpoint (strings abstracted to
an Option marker for name/media_class since only presence matters here). -/
structure EndpointInfo where
  n_streams : Nat
  session_id : Nat
  props : List (Nat × Nat)
  params : List Nat
  name : Option String
  media_class : Option String
  direction : Nat
  flags : Nat
  change_mask : Nat
  deriving Repr, DecidableEq

/-- An endpoint: its stored pod params, its stored info, and the resources
currently on its global's resource_list (by resource id). -/
structure Endpoint where
  pod_params : List Nat
  info : EndpointInfo
  bound : List Nat
  deriving Repr, DecidableEq

/-- An info event sent to one bound resource, with the change_mask the info
carried at emission time. -/
structure InfoEmit where
  resourceId : Nat
  change_mask : Nat
  deriving Repr, DecidableEq

/-- The incoming argument bundle of endpoint_update. -/
structure EndpointUpdateArgs where
  change_mask : Nat
  params : List Nat
  info : EndpointInfo
  deriving Repr, DecidableEq

/-- endpoint_update: the PARAMS branch replaces the stored pods; the INFO
branch copies each info field guarded by its change bit, initialises
name/media_class/direction/flags when the stored name is still NULL, then
emits the info (carrying info->change_mask) to every bound resource and
clears the stored change_mask. -/
def endpoint_update (e : Endpoint) (a : EndpointUpdateArgs) : Endpoint × List InfoEmit :=
  let e :=
    if a.change_mask &&& PW_CLIENT_ENDPOINT_UPDATE_PARAMS ≠ 0 then
      { e with pod_params := a.params }
    else e
  if a.change_mask &&& PW_CLIENT_ENDPOINT_UPDATE_INFO ≠ 0 then
    let i := e.info
    let i := if a.info.change_mask &&& PW_ENDPOINT_CHANGE_MASK_STREAMS ≠ 0 then
        { i with n_streams := a.info.n_streams } else i
    let i := if a.info.change_mask &&& PW_ENDPOINT_CHANGE_MASK_SESSION ≠ 0 then
        { i with session_id := a.info.session_id } else i
    let i := if a.info.change_mask &&& PW_ENDPOINT_CHANGE_MASK_PROPS ≠ 0 then
        { i with props := props_update i.props a.info.props } else i
    let i := if a.info.change_mask &&& PW_ENDPOINT_CHANGE_MASK_PARAMS ≠ 0 then
        { i with params := a.info.params } else i
    let i := if i.name = none then
        { i with name := a.info.name, media_class := a.info.media_class,
                 direction := a.info.direction, flags := a.info.flags }
      else i
    let i := { i with change_mask := a.info.change_mask }
    let emits := e.bound.map (fun r => InfoEmit.mk r i.change_mask)
    ({ e with info := { i with change_mask := 0 } }, emits)
  else (e, [])

/-- endpoint_bind: append the new resource to the global's resource list, emit
the full info (change_mask = ALL) to it once, then clear the change_mask. -/
def endpoint_bind (e : Endpoint) (resourceId : Nat) : Endpoint × List InfoEmit :=
  let e := { e with bound := e.bound ++ [resourceId] }
  let emits := [InfoEmit.mk resourceId PW_ENDPOINT_CHANGE_MASK_ALL]
  ({ e with info := { e.info with change_mask := 0 } }, emits)

/-- The pw_session_info record stored on the session. -/
structure SessionInfo where
  props : List (Nat × Nat)
  params : List Nat
  change_mask : Nat
  deriving Repr, DecidableEq

structure Session where
  pod_params : List Nat
  info : SessionInfo
  bound : List Nat
  deriving Repr, DecidableEq

structure SessionUpdateArgs where
  change_mask : Nat
  params : List Nat
  info : SessionInfo
  deriving Repr, DecidableEq

/-- session_update: like endpoint_update but the info has only props and
params (and no name initialisation). -/
def session_update (s : Session) (a : SessionUpdateArgs) : Session × List InfoEmit :=
  let s :=
    if a.change_mask &&& PW_CLIENT_SESSION_UPDATE_PARAMS ≠ 0 then
      { s with pod_params := a.params }
    else s
  if a.change_mask &&& PW_CLIENT_SESSION_UPDATE_INFO ≠ 0 then
    let i := s.info
    let i := if a.info.change_mask &&& PW_SESSION_CHANGE_MASK_PROPS ≠ 0 then
        { i with props := props_update i.props a.info.props } else i
    let i := if a.info.change_mask &&& PW_SESSION_CHANGE_MASK_PARAMS ≠ 0 then
        { i with params := a.info.params } else i
    let i := { i with change_mask := a.info.change_mask }
    let emits := s.bound.map (fun r => InfoEmit.mk r i.change_mask)
    ({ s with info := { i with change_mask := 0 } }, emits)
  else (s, [])

/-- session_bind, analogous to endpoint_bind. -/
def session_bind (s : Session) (resourceId : Nat) : Session × List InfoEmit :=
  let s := { s with bound := s.bound ++ [resourceId] }
  let emits := [InfoEmit.mk resourceId PW_SESSION_CHANGE_MASK_ALL]
  ({ s with info := { s.info with change_mask := 0 } }, emits)

/-! ## C4 / C5: sanitize_map (alsa-utils.c lines 173-217) and the
default_layouts table (lines 156-166). -/

/- snd_pcm_chmap_position constants (stable ALSA ABI values; alsa headers are
external). Only the ones the default layouts use are named. -/

def SND_CHMAP_UNKNOWN : Nat := 0

def SND_CHMAP_MONO : Nat := 2

def SND_CHMAP_FL : Nat := 3

def SND_CHMAP_FR : Nat := 4

def SND_CHMAP_RL : Nat := 5

def SND_CHMAP_RR : Nat := 6

def SND_CHMAP_FC : Nat := 7

def SND_CHMAP_LFE : Nat := 8

def SND_CHMAP_SL : Nat := 9

def SND_CHMAP_SR : Nat := 10

def SND_CHMAP_LAST : Nat := 36

/-- The default_layouts table: the canonical position mask per channel count
(alsa-utils.c lines 156-166); entry N is the mask for N channels. -/
def default_layouts : List Nat :=
  [ 0,
    1 <<< SND_CHMAP_MONO,
    (1 <<< SND_CHMAP_FL) ||| (1 <<< SND_CHMAP_FR),
    (1 <<< SND_CHMAP_FL) ||| (1 <<< SND_CHMAP_FR) ||| (1 <<< SND_CHMAP_LFE),
    (1 <<< SND_CHMAP_FL) ||| (1 <<< SND_CHMAP_FR) ||| (1 <<< SND_CHMAP_RL) |||
      (1 <<< SND_CHMAP_RR),
    (1 <<< SND_CHMAP_FL) ||| (1 <<< SND_CHMAP_FR) ||| (1 <<< SND_CHMAP_RL) |||
      (1 <<< SND_CHMAP_RR) ||| (1 <<< SND_CHMAP_FC),
    (1 <<< SND_CHMAP_FL) ||| (1 <<< SND_CHMAP_FR) ||| (1 <<< SND_CHMAP_RL) |||
      (1 <<< SND_CHMAP_RR) ||| (1 <<< SND_CHMAP_FC) ||| (1 <<< SND_CHMAP_LFE),
    (1 <<< SND_CHMAP_FL) ||| (1 <<< SND_CHMAP_FR) ||| (1 <<< SND_CHMAP_RL) |||
      (1 <<< SND_CHMAP_RR) ||| (1 <<< SND_CHMAP_SL) ||| (1 <<< SND_CHMAP_SR) |||
      (1 <<< SND_CHMAP_FC),
    (1 <<< SND_CHMAP_FL) ||| (1 <<< SND_CHMAP_FR) ||| (1 <<< SND_CHMAP_RL) |||
      (1 <<< SND_CHMAP_RR) ||| (1 <<< SND_CHMAP_SL) ||| (1 <<< SND_CHMAP_SR) |||
      (1 <<< SND_CHMAP_FC) ||| (1 <<< SND_CHMAP_LFE) ]

/-- The first statement of the sanitising loop: positions outside
0..SND_CHMAP_LAST become UNKNOWN (positions are unsigned, so only the upper
bound can fail). -/
def clampPos (p : Nat) : Nat :=
  if p > SND_CHMAP_LAST then SND_CHMAP_UNKNOWN else p

/-- The inner duplicate loop: set every processed slot holding value v to
UNKNOWN. -/
def zeroOut (v : Nat) (l : List Nat) : List Nat :=
  l.map (fun x => if x = v then SND_CHMAP_UNKNOWN else x)

/-- The first loop of sanitize_map (lines 179-193): done is the prefix of
already processed slots, mask accumulates the seen-position bits (with bit 0
standing in on a duplicate), dup accumulates the duplicated-position bits. -/
def phase1 (done : List Nat) (rest : List Nat) (mask dup : Nat) :
    List Nat × Nat × Nat :=
  match rest with
  | [] => (done, mask, dup)
  | p :: rest =>
    let q := clampPos p
    if Nat.testBit mask q then
      phase1 (zeroOut q done ++ [SND_CHMAP_UNKNOWN]) rest (mask ||| 1) (dup ||| (1 <<< q))
    else
      phase1 (done ++ [q]) rest (mask ||| (1 <<< q)) dup

/-- The do-while of the fill loop (lines 207-211): shift mask right at least
once, advancing pos, until the mask is exhausted or its low bit is set. -/
def seekBit (mask pos : Nat) : Nat × Nat :=
  if mask >>> 1 ≠ 0 ∧ (mask >>> 1) &&& 1 = 0 then seekBit (mask >>> 1) (pos + 1)
  else (mask >>> 1, pos + 1)
  termination_by mask
  decreasing_by
    rename_i hm
    have h0 : mask ≠ 0 := fun h => hm.1 (by simp [h])
    simp only [Nat.shiftRight_one]
    omega

/-- The fill loop of sanitize_map (lines 204-215): each UNKNOWN slot takes the
position found by the do-while, or 0 when the mask ran out. -/
def phase2 (l : List Nat) (mask pos : Nat) : List Nat :=
  match l with
  | [] => []
  | p :: rest =>
    if p = SND_CHMAP_UNKNOWN then
      let r := seekBit mask pos
      (if r.1 ≠ 0 then r.2 else 0) :: phase2 rest r.1 r.2
    else
      p :: phase2 rest mask pos

/-- Complement within the 64 bits of the C uint64_t masks. -/
def compl64 (x : Nat) : Nat := x ^^^ (2 ^ 64 - 1)

/-- sanitize_map: run the clamp/duplicate loop; if no slot became (or was)
UNKNOWN return, else fill the UNKNOWN slots from
default_layouts[channels].mask & ~(mask & ~dup). -/
def sanitize_map (m : List Nat) : List Nat :=
  let r := phase1 [] m 0 0
  let m1 := r.1
  let mask := r.2.1
  let dup := r.2.2
  if ¬Nat.testBit mask SND_CHMAP_UNKNOWN then m1
  else
    let defmask := default_layouts.getD m.length 0
    let mask2 := mask &&& compl64 dup
    let fill := defmask &&& compl64 mask2
    phase2 m1 fill 0

/-! Spec-side description of sanitize_map, following the words of the claim:
clamp out-of-range positions to UNKNOWN, set all occurrences of every
duplicated position to UNKNOWN, then fill UNKNOWN slots walking the set
difference default \ (seen \ duplicated) in ascending bit order. -/

/-- Ascending list of the set bit positions of a 64-bit mask. -/
def bitIdx (n : Nat) : List Nat :=
  (List.range 64).filter (fun i => n.testBit i)

/-- Replace the UNKNOWN (0) slots of a map, in order, by the next elements of
the fill list; a slot with the fill list exhausted stays 0. -/
def fillFrom : List Nat → List Nat → List Nat
  | [], _ => []
  | p :: rest, fills =>
    if p = 0 then
      match fills with
      | [] => 0 :: fillFrom rest []
      | a :: fs => a :: fillFrom rest fs
    else p :: fillFrom rest fills

/-- The map after the claim's clamping step. -/
def clampedOf (m : List Nat) : List Nat := m.map clampPos

/-- The map after the claim's duplicate step: every occurrence of a position
occurring at least twice becomes UNKNOWN. -/
def clearedOf (m : List Nat) : List Nat :=
  (clampedOf m).map (fun v => if 2 ≤ (clampedOf m).count v then SND_CHMAP_UNKNOWN else v)

/-- The claim's fill positions: the set difference default \ (seen \
duplicated) in ascending bit order; a bit of the default layout stays
available unless it was seen exactly once. -/
def fillsOf (m : List Nat) : List Nat :=
  (bitIdx (default_layouts.getD m.length 0)).filter
    (fun b => (clampedOf m).count b != 1)

/-- The claim's description of the sanitiser: clamp, clear duplicates, then
fill the UNKNOWN slots in ascending bit order from the available defaults. -/
def sanitizeSpec (m : List Nat) : List Nat :=
  fillFrom (clearedOf m) (fillsOf m)

/-- The loop invariant of the first loop of sanitize_map, after the prefix pre
of the original map has been processed: done is the cleared prefix, mask holds
the seen positions (bit 0 also records duplicate events), dup holds the
duplicated positions. -/
structure Phase1Inv (pre done : List Nat) (mask dup : Nat) : Prop where
  done_eq : done = clearedOf pre
  mask_pos : ∀ v, v ≠ 0 → (mask.testBit v ↔ v ∈ clampedOf pre)
  mask_zero : mask.testBit 0 ↔
    (0 ∈ clampedOf pre ∨ ∃ v, 2 ≤ (clampedOf pre).count v)
  dup_pos : ∀ v, v ≠ 0 → (dup.testBit v ↔ 2 ≤ (clampedOf pre).count v)
  dup_sub : ∀ v, dup.testBit v → mask.testBit v
  mask_bound : ∀ v, mask.testBit v → v ≤ 36

/-! Characterisation of the first loop of sanitize_map. -/

lemma clampPos_le (p : Nat) : clampPos p ≤ 36 := by
  unfold clampPos SND_CHMAP_LAST SND_CHMAP_UNKNOWN
  split <;> omega

lemma clampedOf_append (a b : List Nat) :
    clampedOf (a ++ b) = clampedOf a ++ clampedOf b := by
  simp [clampedOf]

lemma clampedOf_singleton (p : Nat) : clampedOf [p] = [clampPos p] := rfl

lemma mem_clampedOf_le {v : Nat} {m : List Nat} (h : v ∈ clampedOf m) : v ≤ 36 := by
  rcases List.mem_map.mp h with ⟨p, _, hp⟩
  exact hp ▸ clampPos_le p

lemma count_append_q (pc : List Nat) (q v : Nat) :
    (pc ++ [q]).count v = pc.count v + (if v = q then 1 else 0) := by
  by_cases hv : v = q <;> simp [List.count_append, hv]

lemma testBit_one_iff (v : Nat) : (1 : Nat).testBit v = decide (0 = v) := by
  have h : (1 : Nat) = 2 ^ 0 := by norm_num
  rw [h, Nat.testBit_two_pow]

lemma testBit_shl_one (q v : Nat) : ((1 : Nat) <<< q).testBit v = decide (q = v) := by
  have h : (1 : Nat) <<< q = 2 ^ q := by simp [Nat.shiftLeft_eq]
  rw [h, Nat.testBit_two_pow]

/-- Appending an element whose clamped value is fresh extends the cleared map
by that value. -/
lemma clearedOf_append_new (pre : List Nat) (p : Nat)
    (hq : clampPos p ∉ clampedOf pre) :
    clearedOf (pre ++ [p]) = clearedOf pre ++ [clampPos p] := by
  unfold clearedOf
  rw [clampedOf_append, clampedOf_singleton, List.map_append]
  congr 1
  · apply List.map_congr_left
    intro v hv
    have hvq : v ≠ clampPos p := fun h => hq (h ▸ hv)
    rw [count_append_q, if_neg hvq, Nat.add_zero]
  · have h0 : (clampedOf pre).count (clampPos p) = 0 :=
      List.count_eq_zero.mpr hq
    simp [count_append_q, h0]

/-- Appending an element whose clamped value was already seen (or is UNKNOWN)
zeroes all its occurrences and appends UNKNOWN. -/
lemma clearedOf_append_dup (pre : List Nat) (p : Nat)
    (hq : clampPos p ≠ 0 → clampPos p ∈ clampedOf pre) :
    clearedOf (pre ++ [p]) = zeroOut (clampPos p) (clearedOf pre) ++ [SND_CHMAP_UNKNOWN] := by
  unfold clearedOf zeroOut
  rw [clampedOf_append, clampedOf_singleton, List.map_append, List.map_map]
  congr 1
  · apply List.map_congr_left
    intro v hv
    simp only [Function.comp]
    rw [count_append_q]
    by_cases hvq : v = clampPos p
    · subst hvq
      have h2 : 0 < (clampedOf pre).count (clampPos p) := List.count_pos_iff.mpr hv
      have hc : (if clampPos p = clampPos p then 1 else 0) = 1 := if_pos rfl
      rw [hc, if_pos (by omega)]
      by_cases h3 : 2 ≤ (clampedOf pre).count (clampPos p)
      · rw [if_pos h3]
        exact (ite_self _).symm
      · rw [if_neg h3, if_pos rfl]
    · rw [if_neg hvq, Nat.add_zero]
      by_cases h3 : 2 ≤ (clampedOf pre).count v
      · rw [if_pos h3]
        exact (ite_self _).symm
      · rw [if_neg h3, if_neg hvq]
  · simp only [List.map_cons, List.map_nil]
    congr 1
    rw [count_append_q]
    have hc : (if clampPos p = clampPos p then 1 else 0) = 1 := if_pos rfl
    rw [hc]
    by_cases hq0 : clampPos p = 0
    · by_cases h3 : 2 ≤ (clampedOf pre).count (clampPos p) + 1
      · rw [if_pos h3]
      · rw [if_neg h3, hq0]
        rfl
    · have h2 : 0 < (clampedOf pre).count (clampPos p) :=
        List.count_pos_iff.mpr (hq hq0)
      rw [if_pos (by omega)]

lemma phase1_inv_init : Phase1Inv [] [] 0 0 := by
  constructor <;> simp [clearedOf, clampedOf]

lemma phase1_step_dup {pre done : List Nat} {mask dup : Nat} {p : Nat}
    (h : Phase1Inv pre done mask dup) (hb : mask.testBit (clampPos p) = true) :
    Phase1Inv (pre ++ [p]) (zeroOut (clampPos p) done ++ [SND_CHMAP_UNKNOWN])
      (mask ||| 1) (dup ||| (1 <<< clampPos p)) := by
  have hpc : clampedOf (pre ++ [p]) = clampedOf pre ++ [clampPos p] := by
    rw [clampedOf_append, clampedOf_singleton]
  have hmem : clampPos p ≠ 0 → clampPos p ∈ clampedOf pre :=
    fun h0 => (h.mask_pos _ h0).mp hb
  constructor
  · rw [clearedOf_append_dup pre p hmem, h.done_eq]
  · intro v hv
    rw [Nat.testBit_or, testBit_one_iff, hpc]
    have hd : decide ((0 : Nat) = v) = false := by
      simp only [decide_eq_false_iff_not]
      exact fun hh => hv hh.symm
    rw [hd, Bool.or_false, h.mask_pos v hv, List.mem_append]
    constructor
    · exact fun hin => Or.inl hin
    · rintro (hin | hin)
      · exact hin
      · simp only [List.mem_singleton] at hin
        exact hin ▸ hmem (hin ▸ hv)
  · rw [Nat.testBit_or, testBit_one_iff, hpc]
    simp only [decide_eq_true_eq]
    refine iff_of_true (by simp) ?_
    by_cases hq0 : clampPos p = 0
    · exact Or.inl (by simp [hq0])
    · refine Or.inr ⟨clampPos p, ?_⟩
      rw [count_append_q]
      have hc : (if clampPos p = clampPos p then 1 else 0) = 1 := if_pos rfl
      rw [hc]
      have h2 : 0 < (clampedOf pre).count (clampPos p) :=
        List.count_pos_iff.mpr (hmem hq0)
      omega
  · intro v hv
    rw [Nat.testBit_or, testBit_shl_one, hpc, count_append_q]
    by_cases hvq : v = clampPos p
    · rw [if_pos hvq]
      have h2 : 0 < (clampedOf pre).count v :=
        List.count_pos_iff.mpr (hvq ▸ hmem (fun h0 => hv (hvq.trans h0)))
      refine iff_of_true ?_ (by omega)
      simp [hvq]
    · have hd : decide (clampPos p = v) = false := by
        simp only [decide_eq_false_iff_not]
        exact fun hh => hvq hh.symm
      rw [hd, Bool.or_false, if_neg hvq, Nat.add_zero]
      exact h.dup_pos v hv
  · intro v hv
    rw [Nat.testBit_or, testBit_shl_one] at hv
    rw [Nat.testBit_or]
    rcases Bool.or_eq_true_iff.mp hv with h1 | h1
    · exact Bool.or_eq_true_iff.mpr (Or.inl (h.dup_sub v h1))
    · have hqv : clampPos p = v := of_decide_eq_true h1
      exact Bool.or_eq_true_iff.mpr (Or.inl (hqv ▸ hb))
  · intro v hv
    rw [Nat.testBit_or, testBit_one_iff] at hv
    rcases Bool.or_eq_true_iff.mp hv with h1 | h1
    · exact h.mask_bound v h1
    · have h0 : (0 : Nat) = v := of_decide_eq_true h1
      omega

lemma phase1_step_new {pre done : List Nat} {mask dup : Nat} {p : Nat}
    (h : Phase1Inv pre done mask dup) (hb : mask.testBit (clampPos p) = false) :
    Phase1Inv (pre ++ [p]) (done ++ [clampPos p])
      (mask ||| (1 <<< clampPos p)) dup := by
  have hpc : clampedOf (pre ++ [p]) = clampedOf pre ++ [clampPos p] := by
    rw [clampedOf_append, clampedOf_singleton]
  have hnot : clampPos p ∉ clampedOf pre := by
    intro hin
    by_cases hq0 : clampPos p = 0
    · rw [hq0] at hin
      have : mask.testBit 0 = true := h.mask_zero.mpr (Or.inl hin)
      rw [hq0] at hb
      exact absurd this (by rw [hb]; exact Bool.false_ne_true)
    · have : mask.testBit (clampPos p) = true := (h.mask_pos _ hq0).mpr hin
      exact absurd this (by rw [hb]; exact Bool.false_ne_true)
  have hcnt0 : (clampedOf pre).count (clampPos p) = 0 := List.count_eq_zero.mpr hnot
  constructor
  · rw [clearedOf_append_new pre p hnot, h.done_eq]
  · intro v hv
    rw [Nat.testBit_or, testBit_shl_one, hpc, List.mem_append, List.mem_singleton]
    constructor
    · intro hin
      rcases Bool.or_eq_true_iff.mp hin with h1 | h1
      · exact Or.inl ((h.mask_pos v hv).mp h1)
      · exact Or.inr (of_decide_eq_true h1).symm
    · rintro (hin | hin)
      · exact Bool.or_eq_true_iff.mpr (Or.inl ((h.mask_pos v hv).mpr hin))
      · exact Bool.or_eq_true_iff.mpr (Or.inr (by simp [hin]))
  · rw [Nat.testBit_or, testBit_shl_one, hpc]
    by_cases hq0 : clampPos p = 0
    · refine iff_of_true ?_ (Or.inl (by simp [hq0])) <;> simp [hq0]
    · have hd : decide (clampPos p = 0) = false := by
        simp only [decide_eq_false_iff_not]
        exact hq0
      rw [hd, Bool.or_false, h.mask_zero]
      constructor
      · rintro (h1 | ⟨v, h1⟩)
        · exact Or.inl (List.mem_append.mpr (Or.inl h1))
        · refine Or.inr ⟨v, ?_⟩
          rw [count_append_q]
          omega
      · rintro (h1 | ⟨v, h1⟩)
        · rcases List.mem_append.mp h1 with h2 | h2
          · exact Or.inl h2
          · simp only [List.mem_singleton] at h2
            exact absurd h2.symm hq0
        · rw [count_append_q] at h1
          by_cases hvq : v = clampPos p
          · rw [if_pos hvq, hvq, hcnt0] at h1
            omega
          · rw [if_neg hvq, Nat.add_zero] at h1
            exact Or.inr ⟨v, h1⟩
  · intro v hv
    rw [hpc, count_append_q]
    by_cases hvq : v = clampPos p
    · have hdv : dup.testBit (clampPos p) = false := by
        cases hdd : dup.testBit (clampPos p)
        · rfl
        · exact absurd (h.dup_sub _ hdd) (by rw [hb]; exact Bool.false_ne_true)
      rw [if_pos hvq, hvq, hcnt0]
      refine iff_of_false ?_ (by omega)
      rw [hdv]
      exact Bool.false_ne_true
    · rw [if_neg hvq, Nat.add_zero]
      exact h.dup_pos v hv
  · intro v hv
    rw [Nat.testBit_or]
    exact Bool.or_eq_true_iff.mpr (Or.inl (h.dup_sub v hv))
  · intro v hv
    rw [Nat.testBit_or, testBit_shl_one] at hv
    rcases Bool.or_eq_true_iff.mp hv with h1 | h1
    · exact h.mask_bound v h1
    · have hqv : clampPos p = v := of_decide_eq_true h1
      exact hqv ▸ clampPos_le p

lemma phase1_go : ∀ (rest pre done : List Nat) (mask dup : Nat),
    Phase1Inv pre done mask dup →
    Phase1Inv (pre ++ rest) (phase1 done rest mask dup).1
      (phase1 done rest mask dup).2.1 (phase1 done rest mask dup).2.2 := by
  intro rest
  induction rest with
  | nil =>
    intro pre done mask dup h
    simpa [phase1] using h
  | cons p rest ih =>
    intro pre done mask dup h
    rw [phase1]
    have hassoc : pre ++ p :: rest = (pre ++ [p]) ++ rest := by simp
    by_cases hb : mask.testBit (clampPos p)
    · simp only [hb, if_true, if_pos]
      rw [hassoc]
      exact ih (pre ++ [p]) _ _ _ (phase1_step_dup h hb)
    · simp only [hb, Bool.false_eq_true, if_false]
      rw [hassoc]
      exact ih (pre ++ [p]) _ _ _ (phase1_step_new h (Bool.not_eq_true _ ▸ eq_false_of_ne_true hb))

/-- The final state of the first loop of sanitize_map. -/
lemma phase1_spec (m : List Nat) :
    Phase1Inv m (phase1 [] m 0 0).1 (phase1 [] m 0 0).2.1 (phase1 [] m 0 0).2.2 := by
  have h := phase1_go m [] [] 0 0 phase1_inv_init
  simpa using h

/-! The fill loop: seekBit walks to the next available bit, phase2 equals
filling UNKNOWN slots from the ascending bit list. -/

lemma mem_bitIdx {b n : Nat} : b ∈ bitIdx n ↔ b < 64 ∧ n.testBit b := by
  simp [bitIdx, List.mem_filter, List.mem_range]

lemma bitIdx_pairwise (n : Nat) : List.Pairwise (fun a b => a < b) (bitIdx n) :=
  (List.pairwise_lt_range 64).filter _

lemma bitIdx_nodup (n : Nat) : (bitIdx n).Nodup :=
  (bitIdx_pairwise n).imp (fun h => Nat.ne_of_lt h)

lemma pairwise_lt_map_add (c : Nat) (l : List Nat)
    (h : List.Pairwise (fun a b => a < b) l) :
    List.Pairwise (fun a b => a < b) (l.map (fun b => b + c)) := by
  rw [List.pairwise_map]
  exact h.imp (fun hab => by omega)

lemma sorted_eq_of_mem_iff {l1 l2 : List Nat}
    (s1 : List.Pairwise (fun a b => a < b) l1)
    (s2 : List.Pairwise (fun a b => a < b) l2)
    (h : ∀ x, x ∈ l1 ↔ x ∈ l2) : l1 = l2 := by
  have n1 : l1.Nodup := s1.imp (fun hh => Nat.ne_of_lt hh)
  have n2 : l2.Nodup := s2.imp (fun hh => Nat.ne_of_lt hh)
  refine List.eq_of_perm_of_sorted ?_ s1 s2
  exact (n1.subperm (fun x hx => (h x).mp hx)).antisymm
    (n2.subperm (fun x hx => (h x).mpr hx))

lemma testBit_lt_of_lt {n i w : Nat} (hn : n < 2 ^ w) (h : n.testBit i = true) : i < w := by
  by_contra hc
  push_neg at hc
  have h1 : 2 ^ i ≤ n := Nat.testBit_implies_ge h
  have h2 : (2 : Nat) ^ w ≤ 2 ^ i := Nat.pow_le_pow_right (by norm_num) hc
  omega

lemma exists_testBit_of_ne_zero {n : Nat} (h : n ≠ 0) : ∃ i, n.testBit i = true := by
  by_contra hc
  push_neg at hc
  exact h (Nat.zero_of_testBit_eq_false (fun i => Bool.eq_false_iff.mpr (hc i)))

/-- seekBit stops at the lowest set bit of mask >>> 1, returning the shifted
mask and the advanced position. -/
lemma seekBit_spec : ∀ (mask : Nat), ∀ (pos : Nat), mask >>> 1 ≠ 0 →
    ∃ k, (mask >>> 1).testBit k = true ∧
      (∀ j, j < k → (mask >>> 1).testBit j = false) ∧
      seekBit mask pos = ((mask >>> 1) >>> k, pos + 1 + k) := by
  intro mask
  induction mask using Nat.strong_induction_on with
  | _ mask ih =>
    intro pos hne
    rw [seekBit]
    by_cases hc : mask >>> 1 ≠ 0 ∧ (mask >>> 1) &&& 1 = 0
    · rw [if_pos hc]
      have hmod : (mask >>> 1) % 2 = 0 := by
        rw [← Nat.and_one_is_mod]
        exact hc.2
      have h2 : (mask >>> 1) >>> 1 ≠ 0 := by
        intro h0
        rw [Nat.shiftRight_one] at h0
        rw [Nat.shiftRight_one] at hmod
        have : mask >>> 1 = 0 := by
          rw [Nat.shiftRight_one]
          omega
        exact hne this
      have hlt : mask >>> 1 < mask := by
        have hm0 : mask ≠ 0 := by
          intro h0
          apply hne
          rw [h0]
          rfl
        rw [Nat.shiftRight_one]
        omega
      obtain ⟨k, hk1, hk2, hk3⟩ := ih (mask >>> 1) hlt (pos + 1) h2
      refine ⟨k + 1, ?_, ?_, ?_⟩
      · have := Nat.testBit_succ (mask >>> 1) k
        rw [this]
        rw [← Nat.shiftRight_one]
        exact hk1
      · intro j hj
        cases j with
        | zero =>
          rw [Nat.testBit_zero]
          simp [hmod]
        | succ j0 =>
          have hj0 : j0 < k := by omega
          have := Nat.testBit_succ (mask >>> 1) j0
          rw [this, ← Nat.shiftRight_one]
          exact hk2 j0 hj0
      · rw [hk3]
        have hsh : ((mask >>> 1) >>> 1) >>> k = (mask >>> 1) >>> (k + 1) := by
          rw [← Nat.shiftRight_add]
          congr 1
          omega
        rw [hsh]
        congr 1
        omega
    · rw [if_neg hc]
      push_neg at hc
      have hodd : (mask >>> 1) &&& 1 ≠ 0 := hc hne
      refine ⟨0, ?_, by omega, ?_⟩
      · have hm : (mask >>> 1) % 2 ≠ 0 := by
          rw [← Nat.and_one_is_mod]
          exact hodd
        rw [Nat.testBit_zero]
        simp only [decide_eq_true_eq]
        omega
      · rw [Nat.shiftRight_zero]

lemma bitIdx_zero : bitIdx 0 = [] := by decide

lemma bitIdx_eq_cons {n k : Nat} (hlt : n < 2 ^ 63)
    (hk : n.testBit k = true) (hmin : ∀ j, j < k → n.testBit j = false) :
    bitIdx n = k :: (bitIdx (n >>> (k + 1))).map (fun b => b + (k + 1)) := by
  have hk64 : k < 64 := by
    have := testBit_lt_of_lt hlt hk
    omega
  apply sorted_eq_of_mem_iff (bitIdx_pairwise n)
  · rw [List.pairwise_cons]
    constructor
    · intro y hy
      rcases List.mem_map.mp hy with ⟨b, _, hb⟩
      omega
    · exact pairwise_lt_map_add (k + 1) _ (bitIdx_pairwise _)
  · intro x
    rw [mem_bitIdx, List.mem_cons]
    constructor
    · rintro ⟨hx64, hxbit⟩
      by_cases hxk : x = k
      · exact Or.inl hxk
      · have hgt : k < x := by
          rcases Nat.lt_or_ge x k with h1 | h1
          · rw [hmin x h1] at hxbit
            exact absurd hxbit (by simp)
          · omega
        refine Or.inr (List.mem_map.mpr ⟨x - (k + 1), ?_, by omega⟩)
        rw [mem_bitIdx]
        refine ⟨by omega, ?_⟩
        rw [Nat.testBit_shiftRight]
        have harith : k + 1 + (x - (k + 1)) = x := by omega
        rw [harith]
        exact hxbit
    · rintro (hxk | hx)
      · exact ⟨by omega, hxk ▸ hk⟩
      · rcases List.mem_map.mp hx with ⟨b, hb, hbx⟩
        rw [mem_bitIdx] at hb
        have hbit : n.testBit x = true := by
          rcases hb with ⟨hb64, hbbit⟩
          rw [Nat.testBit_shiftRight] at hbbit
          have harith : k + 1 + b = x := by omega
          rw [harith] at hbbit
          exact hbbit
        exact ⟨testBit_lt_of_lt (by omega : n < 2 ^ 64) hbit, hbit⟩

lemma fillFrom_cons_ne {p : Nat} (rest fills : List Nat) (hp : p ≠ 0) :
    fillFrom (p :: rest) fills = p :: fillFrom rest fills := by
  rw [fillFrom.eq_def]
  simp only [if_neg hp]

lemma fillFrom_cons_zero_nil (rest : List Nat) :
    fillFrom (0 :: rest) [] = 0 :: fillFrom rest [] := rfl

lemma fillFrom_cons_zero (rest : List Nat) (a : Nat) (fs : List Nat) :
    fillFrom (0 :: rest) (a :: fs) = a :: fillFrom rest fs := rfl

/-- The fill loop equals filling the UNKNOWN slots from the ascending list of
the set bits of mask >>> 1 (shifted by the running position). -/
lemma phase2_eq : ∀ (l : List Nat) (mask pos : Nat), mask < 2 ^ 63 →
    phase2 l mask pos =
      fillFrom l ((bitIdx (mask >>> 1)).map (fun b => b + (pos + 1))) := by
  intro l
  induction l with
  | nil =>
    intro mask pos _
    rw [phase2]
    rfl
  | cons p rest ih =>
    intro mask pos hlt
    rw [phase2]
    by_cases hp : p = SND_CHMAP_UNKNOWN
    · rw [if_pos hp]
      have hp0 : p = 0 := hp
      by_cases hz : mask >>> 1 = 0
      · have hseek : seekBit mask pos = (0, pos + 1) := by
          rw [seekBit, if_neg (by rw [hz]; simp), hz]
        rw [hseek, hz, bitIdx_zero]
        simp only [List.map_nil]
        rw [hp0, fillFrom_cons_zero_nil]
        have hrec := ih 0 (pos + 1) (by norm_num)
        rw [hrec]
        simp [bitIdx_zero]
      · obtain ⟨k, hk1, hk2, hk3⟩ := seekBit_spec mask pos hz
        have hm1lt : mask >>> 1 < 2 ^ 63 := by
          rw [Nat.shiftRight_one]
          omega
        have hcons := bitIdx_eq_cons hm1lt hk1 hk2
        rw [hk3, hcons]
        have hne2 : (mask >>> 1) >>> k ≠ 0 := by
          intro h0
          have hb : ((mask >>> 1) >>> k).testBit 0 = (mask >>> 1).testBit (k + 0) :=
            Nat.testBit_shiftRight (mask >>> 1)
          rw [Nat.add_zero, hk1, h0] at hb
          exact absurd hb.symm (by simp)
        simp only [List.map_cons]
        rw [hp0, fillFrom_cons_zero, if_pos hne2]
        have hlt2 : (mask >>> 1) >>> k < 2 ^ 63 := by
          rcases Nat.lt_or_ge ((mask >>> 1) >>> k) (2 ^ 63) with h1 | h1
          · exact h1
          · exfalso
            have : (mask >>> 1) >>> k ≤ mask >>> 1 := by
              rw [Nat.shiftRight_eq_div_pow]
              exact Nat.div_le_self _ _
            omega
        rw [ih _ _ hlt2]
        congr 1
        · omega
        · have hsh : ((mask >>> 1) >>> k) >>> 1 = (mask >>> 1) >>> (k + 1) := by
            rw [← Nat.shiftRight_add]
          rw [hsh, List.map_map]
          congr 1
          apply List.map_congr_left
          intro b hb
          simp only [Function.comp]
          omega
    · rw [if_neg hp]
      have hp0 : p ≠ 0 := hp
      rw [fillFrom_cons_ne rest _ hp0, ih mask pos hlt]

lemma fillFrom_of_no_zero : ∀ (l fs : List Nat), (∀ x ∈ l, x ≠ 0) →
    fillFrom l fs = l := by
  intro l
  induction l with
  | nil => intro fs _; rfl
  | cons p rest ih =>
    intro fs h
    have hp : p ≠ 0 := h p (List.mem_cons_self p rest)
    rw [fillFrom_cons_ne rest fs hp, ih fs (fun x hx => h x (List.mem_cons_of_mem p hx))]

lemma defmask_lt (n : Nat) : default_layouts.getD n 0 < 2 ^ 63 := by
  by_cases hn : n < 9
  · interval_cases n <;> decide
  · rw [List.getD_eq_default _ _ (by simp [default_layouts]; omega)]
    norm_num

lemma defmask_bit0 (n : Nat) : (default_layouts.getD n 0).testBit 0 = false := by
  by_cases hn : n < 9
  · interval_cases n <;> decide
  · rw [List.getD_eq_default _ _ (by simp [default_layouts]; omega)]
    decide

lemma testBit_compl64 {x b : Nat} (hb : b < 64) : (compl64 x).testBit b = ! x.testBit b := by
  rw [compl64, Nat.testBit_xor, Nat.testBit_two_pow_sub_one]
  simp [hb]

lemma bitIdx_shift_one {n : Nat} (h0 : n.testBit 0 = false) (hlt : n < 2 ^ 63) :
    (bitIdx (n >>> 1)).map (fun b => b + 1) = bitIdx n := by
  apply sorted_eq_of_mem_iff
  · exact pairwise_lt_map_add 1 _ (bitIdx_pairwise _)
  · exact bitIdx_pairwise n
  · intro x
    constructor
    · intro hx
      rcases List.mem_map.mp hx with ⟨b, hb, hbx⟩
      rw [mem_bitIdx] at hb
      have hbit : n.testBit x = true := by
        rcases hb with ⟨_, hbbit⟩
        rw [Nat.testBit_shiftRight] at hbbit
        have harith : 1 + b = x := by omega
        rw [harith] at hbbit
        exact hbbit
      rw [mem_bitIdx]
      exact ⟨testBit_lt_of_lt (by omega : n < 2 ^ 64) hbit, hbit⟩
    · intro hx
      rw [mem_bitIdx] at hx
      rcases hx with ⟨hx64, hxbit⟩
      have hx0 : x ≠ 0 := by
        intro h
        rw [h, h0] at hxbit
        exact absurd hxbit (by simp)
      refine List.mem_map.mpr ⟨x - 1, ?_, by omega⟩
      rw [mem_bitIdx]
      refine ⟨by omega, ?_⟩
      rw [Nat.testBit_shiftRight]
      have harith : 1 + (x - 1) = x := by omega
      rw [harith]
      exact hxbit

lemma bitIdx_and (a b : Nat) :
    bitIdx (a &&& b) = (bitIdx a).filter (fun i => b.testBit i) := by
  unfold bitIdx
  rw [List.filter_filter]
  apply List.filter_congr
  intro i _
  rw [Nat.testBit_and]
  exact Bool.and_comm _ _

/-- sanitize_map computes exactly the claim's clamp / clear-duplicates / fill
description. -/
lemma sanitize_map_eq_spec (m : List Nat) : sanitize_map m = sanitizeSpec m := by
  obtain ⟨hdone, hmaskpos, hmaskzero, hduppos, hdupsub, hmaskbound⟩ := phase1_spec m
  simp only [sanitize_map]
  by_cases hb : (phase1 [] m 0 0).2.1.testBit SND_CHMAP_UNKNOWN
  · rw [if_neg (by simp [hb])]
    have hb0 : (phase1 [] m 0 0).2.1.testBit 0 = true := hb
    have hfill_lt : default_layouts.getD m.length 0 &&&
        compl64 ((phase1 [] m 0 0).2.1 &&& compl64 (phase1 [] m 0 0).2.2) < 2 ^ 63 :=
      Nat.lt_of_le_of_lt Nat.and_le_left (defmask_lt m.length)
    rw [phase2_eq _ _ _ hfill_lt, hdone]
    unfold sanitizeSpec
    congr 1
    have hbit0 : (default_layouts.getD m.length 0 &&&
        compl64 ((phase1 [] m 0 0).2.1 &&& compl64 (phase1 [] m 0 0).2.2)).testBit 0 = false := by
      rw [Nat.testBit_and, defmask_bit0]
      rfl
    simp only [Nat.zero_add]
    rw [bitIdx_shift_one hbit0 hfill_lt, bitIdx_and]
    unfold fillsOf
    apply List.filter_congr
    intro b hbmem
    obtain ⟨hb64, hbbit⟩ := mem_bitIdx.mp hbmem
    have hbne0 : b ≠ 0 := by
      intro h
      rw [h, defmask_bit0] at hbbit
      exact absurd hbbit (by simp)
    rw [testBit_compl64 hb64, Nat.testBit_and, testBit_compl64 hb64]
    have hM := hmaskpos b hbne0
    have hD := hduppos b hbne0
    rcases Nat.lt_or_ge ((clampedOf m).count b) 1 with hc | hc
    · have hnm : (phase1 [] m 0 0).2.1.testBit b = false := by
        cases h : (phase1 [] m 0 0).2.1.testBit b
        · rfl
        · exfalso
          have hmem := hM.mp h
          have := List.count_pos_iff.mpr hmem
          omega
      have hcount : (clampedOf m).count b = 0 := by omega
      rw [hnm, hcount]
      simp
    · rcases Nat.lt_or_ge ((clampedOf m).count b) 2 with hc2 | hc2
      · have hcm : (clampedOf m).count b = 1 := by omega
        have hm : (phase1 [] m 0 0).2.1.testBit b = true :=
          hM.mpr (List.count_pos_iff.mp (by omega))
        have hd : (phase1 [] m 0 0).2.2.testBit b = false := by
          cases h : (phase1 [] m 0 0).2.2.testBit b
          · rfl
          · exfalso
            have := hD.mp h
            omega
        rw [hm, hd, hcm]
        decide
      · have hm : (phase1 [] m 0 0).2.1.testBit b = true :=
          hM.mpr (List.count_pos_iff.mp (by omega))
        have hd : (phase1 [] m 0 0).2.2.testBit b = true := hD.mpr hc2
        rw [hm, hd]
        simp only [Bool.not_true, Bool.and_false, Bool.not_false]
        have : (clampedOf m).count b ≠ 1 := by omega
        simp [this]
  · rw [if_pos (by simp [hb])]
    rw [hdone]
    unfold sanitizeSpec
    rw [fillFrom_of_no_zero _ _ ?_]
    intro x hx
    have hnot : ¬(0 ∈ clampedOf m ∨ ∃ v, 2 ≤ (clampedOf m).count v) := by
      intro h
      exact hb (hmaskzero.mpr h)
    push_neg at hnot
    rcases List.mem_map.mp hx with ⟨v, hv, hvx⟩
    by_cases h2 : 2 ≤ (clampedOf m).count v
    · exact absurd h2 (by have := hnot.2 v; omega)
    · rw [if_neg h2] at hvx
      intro hx0
      rw [hx0] at hvx
      exact hnot.1 (by rw [hvx] at hv; simpa [SND_CHMAP_UNKNOWN] using hv)

lemma fillFrom_mem : ∀ (l fs : List Nat), l.count 0 ≤ fs.length →
    ∀ x ∈ fillFrom l fs, (x ∈ l ∧ x ≠ 0) ∨ x ∈ fs := by
  intro l
  induction l with
  | nil =>
    intro fs _ x hx
    cases hx
  | cons p rest ih =>
    intro fs hlen x hx
    by_cases hp : p = 0
    · subst hp
      cases fs with
      | nil =>
        rw [List.count_cons_self] at hlen
        simp only [List.length_nil] at hlen
        omega
      | cons a fs2 =>
        rw [fillFrom_cons_zero] at hx
        have hlen2 : rest.count 0 ≤ fs2.length := by
          rw [List.count_cons_self] at hlen
          simp only [List.length_cons] at hlen
          omega
        rcases List.mem_cons.mp hx with h1 | h1
        · exact Or.inr (h1 ▸ List.mem_cons_self a fs2)
        · rcases ih fs2 hlen2 x h1 with ⟨h2, h3⟩ | h2
          · exact Or.inl ⟨List.mem_cons_of_mem _ h2, h3⟩
          · exact Or.inr (List.mem_cons_of_mem _ h2)
    · rw [fillFrom_cons_ne _ _ hp] at hx
      have hlen2 : rest.count 0 ≤ fs.length := by
        have hz : ¬((p == 0) = true) := by simp [hp]
        rw [List.count_cons, if_neg hz] at hlen
        omega
      rcases List.mem_cons.mp hx with h1 | h1
      · exact Or.inl ⟨h1 ▸ List.mem_cons_self p rest, h1 ▸ hp⟩
      · rcases ih fs hlen2 x h1 with ⟨h2, h3⟩ | h2
        · exact Or.inl ⟨List.mem_cons_of_mem _ h2, h3⟩
        · exact Or.inr h2

lemma fillFrom_nodup : ∀ (l fs : List Nat), l.count 0 ≤ fs.length →
    (l.filter (fun x => x != 0)).Nodup → fs.Nodup →
    (∀ x ∈ fs, ¬(x ∈ l ∧ x ≠ 0)) → (fillFrom l fs).Nodup := by
  intro l
  induction l with
  | nil =>
    intro fs _ _ _ _
    exact List.nodup_nil
  | cons p rest ih =>
    intro fs hlen h1 h2 h3
    by_cases hp : p = 0
    · subst hp
      cases fs with
      | nil =>
        rw [List.count_cons_self] at hlen
        simp only [List.length_nil] at hlen
        omega
      | cons a fs2 =>
        have hlen2 : rest.count 0 ≤ fs2.length := by
          rw [List.count_cons_self] at hlen
          simp only [List.length_cons] at hlen
          omega
        have h1t : (rest.filter (fun x => x != 0)).Nodup := by
          have : (0 :: rest).filter (fun x => x != 0) = rest.filter (fun x => x != 0) := by
            simp
          rw [this] at h1
          exact h1
        rw [fillFrom_cons_zero]
        rw [List.nodup_cons]
        constructor
        · intro hmem
          rcases fillFrom_mem rest fs2 hlen2 a hmem with ⟨hm, hz⟩ | hm
          · exact h3 a (List.mem_cons_self a fs2) ⟨List.mem_cons_of_mem _ hm, hz⟩
          · exact (List.nodup_cons.mp h2).1 hm
        · exact ih fs2 hlen2 h1t (List.nodup_cons.mp h2).2
            (fun x hx hmem =>
              h3 x (List.mem_cons_of_mem _ hx) ⟨List.mem_cons_of_mem _ hmem.1, hmem.2⟩)
    · have hlen2 : rest.count 0 ≤ fs.length := by
        have hz : ¬((p == 0) = true) := by simp [hp]
        rw [List.count_cons, if_neg hz] at hlen
        omega
      have hfp : (p :: rest).filter (fun x => x != 0) =
          p :: rest.filter (fun x => x != 0) := by
        simp [hp]
      rw [hfp, List.nodup_cons] at h1
      rw [fillFrom_cons_ne _ _ hp, List.nodup_cons]
      constructor
      · intro hmem
        rcases fillFrom_mem rest fs hlen2 p hmem with ⟨hm, _⟩ | hm
        · exact h1.1 (List.mem_filter.mpr ⟨hm, by simp [hp]⟩)
        · exact h3 p hm ⟨List.mem_cons_self p rest, hp⟩
      · exact ih fs hlen2 h1.2 h2
          (fun x hx hmem =>
            h3 x hx ⟨List.mem_cons_of_mem _ hmem.1, hmem.2⟩)

lemma fillFrom_perm : ∀ (l fs : List Nat), l.count 0 = fs.length →
    List.Perm (fillFrom l fs) (l.filter (fun x => x != 0) ++ fs) := by
  intro l
  induction l with
  | nil =>
    intro fs hlen
    rw [List.count_nil] at hlen
    rw [List.length_eq_zero.mp hlen.symm]
    rfl
  | cons p rest ih =>
    intro fs hlen
    by_cases hp : p = 0
    · subst hp
      cases fs with
      | nil =>
        rw [List.count_cons_self] at hlen
        simp only [List.length_nil] at hlen
        omega
      | cons a fs2 =>
        have hlen2 : rest.count 0 = fs2.length := by
          rw [List.count_cons_self] at hlen
          simp only [List.length_cons] at hlen
          omega
        rw [fillFrom_cons_zero]
        have hfz : (0 :: rest).filter (fun x => x != 0) =
            rest.filter (fun x => x != 0) := by
          simp
        rw [hfz]
        exact List.Perm.trans (List.Perm.cons a (ih fs2 hlen2)) List.perm_middle.symm
    · have hlen2 : rest.count 0 = fs.length := by
        have hz : ¬((p == 0) = true) := by simp [hp]
        rw [List.count_cons, if_neg hz] at hlen
        omega
      have hfp : (p :: rest).filter (fun x => x != 0) =
          p :: rest.filter (fun x => x != 0) := by
        simp [hp]
      rw [fillFrom_cons_ne _ _ hp, hfp, List.cons_append]
      exact List.Perm.cons p (ih fs hlen2)

lemma fillFrom_replicate_zero : ∀ (n : Nat) (fs : List Nat), fs.length = n →
    fillFrom (List.replicate n 0) fs = fs := by
  intro n
  induction n with
  | zero =>
    intro fs hfs
    rw [List.length_eq_zero.mp hfs]
    rfl
  | succ k ih =>
    intro fs hfs
    cases fs with
    | nil => simp at hfs
    | cons a fs2 =>
      rw [List.replicate_succ, fillFrom_cons_zero, ih fs2 (by simpa using hfs)]

/-- The nonzero entries of the cleared map are exactly the clamped positions
seen exactly once. -/
lemma cleared_nz_eq (m : List Nat) :
    (clearedOf m).filter (fun x => x != 0) =
      (clampedOf m).filter (fun v => v != 0 && (clampedOf m).count v == 1) := by
  unfold clearedOf
  rw [List.filter_map]
  have hfc : ∀ v ∈ clampedOf m,
      ((fun x => x != 0) ∘
        (fun v => if 2 ≤ (clampedOf m).count v then SND_CHMAP_UNKNOWN else v)) v =
      (v != 0 && (clampedOf m).count v == 1) := by
    intro v hv
    simp only [Function.comp]
    have hcpos : 0 < (clampedOf m).count v := List.count_pos_iff.mpr hv
    by_cases h2 : 2 ≤ (clampedOf m).count v
    · rw [if_pos h2]
      have hne : (clampedOf m).count v ≠ 1 := by omega
      simp [SND_CHMAP_UNKNOWN, hne]
    · rw [if_neg h2]
      have heq : (clampedOf m).count v = 1 := by omega
      simp [heq]
  rw [List.filter_congr hfc]
  have hid : ∀ v ∈ (clampedOf m).filter
      (fun v => v != 0 && (clampedOf m).count v == 1),
      (fun v => if 2 ≤ (clampedOf m).count v then SND_CHMAP_UNKNOWN else v) v = id v := by
    intro v hv
    have h2 := (List.mem_filter.mp hv).2
    simp only [Bool.and_eq_true, beq_iff_eq] at h2
    simp only [id]
    rw [if_neg (by omega)]
  rw [List.map_congr_left hid, List.map_id]

lemma cleared_nz_nodup (m : List Nat) :
    ((clearedOf m).filter (fun x => x != 0)).Nodup := by
  rw [cleared_nz_eq, List.nodup_iff_count_le_one]
  intro a
  by_cases hq : (a != 0 && (clampedOf m).count a == 1) = true
  · have h1 : (clampedOf m).count a = 1 := by
      simp only [Bool.and_eq_true, beq_iff_eq] at hq
      exact hq.2
    have h2 := (List.filter_sublist (l := clampedOf m)
      (p := fun v => v != 0 && (clampedOf m).count v == 1)).count_le a
    omega
  · have hnot : a ∉ (clampedOf m).filter
        (fun v => v != 0 && (clampedOf m).count v == 1) :=
      fun hmem => hq (List.mem_filter.mp hmem).2
    rw [List.count_eq_zero.mpr hnot]
    omega

lemma mem_cleared_nz_iff (m : List Nat) (x : Nat) :
    x ∈ (clearedOf m).filter (fun y => y != 0) ↔
      (x ≠ 0 ∧ x ∈ clampedOf m ∧ (clampedOf m).count x = 1) := by
  rw [cleared_nz_eq, List.mem_filter]
  simp only [Bool.and_eq_true, beq_iff_eq, bne_iff_ne, ne_eq]
  tauto

lemma bitIdx_defmask_length {n : Nat} (h : n ≤ 8) :
    (bitIdx (default_layouts.getD n 0)).length = n := by
  interval_cases n <;> decide

lemma mem_bitIdx_defmask_le {n : Nat} :
    ∀ b ∈ bitIdx (default_layouts.getD n 0), 2 ≤ b ∧ b ≤ 36 := by
  by_cases hn : n < 9
  · interval_cases n <;> decide
  · intro b hb
    rw [List.getD_eq_default _ _ (by simp [default_layouts]; omega), bitIdx_zero] at hb
    cases hb

/-- The count of zeros the fill loop must serve never exceeds the number of
available default positions. -/
lemma fills_enough (m : List Nat) (hN : m.length ≤ 8) :
    (clearedOf m).count 0 ≤ (fillsOf m).length := by
  have hA := List.length_eq_length_filter_add
    (l := bitIdx (default_layouts.getD m.length 0))
    (fun b => (clampedOf m).count b == 1)
  have hfound : (bitIdx (default_layouts.getD m.length 0)).filter
      (fun a => !((clampedOf m).count a == 1)) = fillsOf m := by
    unfold fillsOf
    apply List.filter_congr
    intro b _
    rfl
  rw [hfound, bitIdx_defmask_length hN] at hA
  -- the exactly-once default bits inject into the nonzero cleared entries
  have hsub : (bitIdx (default_layouts.getD m.length 0)).filter
      (fun b => (clampedOf m).count b == 1) ⊆
      (clearedOf m).filter (fun y => y != 0) := by
    intro b hb
    have hmem := List.mem_filter.mp hb
    have hcnt : (clampedOf m).count b = 1 := by
      have := hmem.2
      simpa using this
    have hb0 : b ≠ 0 := by
      have := (mem_bitIdx_defmask_le b hmem.1).1
      omega
    exact (mem_cleared_nz_iff m b).mpr
      ⟨hb0, List.count_pos_iff.mp (by omega), hcnt⟩
  have hnodupA : ((bitIdx (default_layouts.getD m.length 0)).filter
      (fun b => (clampedOf m).count b == 1)).Nodup :=
    (bitIdx_nodup _).filter _
  have hlenA := ((hnodupA.subperm hsub).length_le)
  -- zeros of the cleared map
  have hz := List.length_eq_length_filter_add (l := clearedOf m) (fun x => x == 0)
  have hcz : (clearedOf m).count 0 =
      ((clearedOf m).filter (fun x => x == 0)).length := by
    rw [List.count_eq_countP, List.countP_eq_length_filter]
  have hnz : ((clearedOf m).filter (fun a => !(a == 0))).length =
      ((clearedOf m).filter (fun y => y != 0)).length := by
    congr 1
  have hclen : (clearedOf m).length = m.length := by
    unfold clearedOf clampedOf
    simp
  omega

/-- With at most 8 channels, the sanitised map has no UNKNOWN slot, no
duplicate, and every position within range. -/
lemma sanitizeSpec_good (m : List Nat) (hN : m.length ≤ 8) :
    (∀ x ∈ sanitizeSpec m, x ≠ 0 ∧ x ≤ 36) ∧ (sanitizeSpec m).Nodup := by
  have hlen := fills_enough m hN
  have hfnodup : (fillsOf m).Nodup := (bitIdx_nodup _).filter _
  have hdisj : ∀ x ∈ fillsOf m, ¬(x ∈ clearedOf m ∧ x ≠ 0) := by
    intro x hx ⟨hmem, hne⟩
    have h1 := List.mem_filter.mp hx
    have h2 : (clampedOf m).count x ≠ 1 := by
      have := h1.2
      simpa using this
    have h3 : x ∈ (clearedOf m).filter (fun y => y != 0) :=
      List.mem_filter.mpr ⟨hmem, by simp [hne]⟩
    have h4 := (mem_cleared_nz_iff m x).mp h3
    exact h2 h4.2.2
  constructor
  · intro x hx
    rcases fillFrom_mem _ _ hlen x hx with ⟨hmem, hne⟩ | hmem
    · refine ⟨hne, ?_⟩
      have h3 : x ∈ (clearedOf m).filter (fun y => y != 0) :=
        List.mem_filter.mpr ⟨hmem, by simp [hne]⟩
      have h4 := (mem_cleared_nz_iff m x).mp h3
      exact mem_clampedOf_le h4.2.1
    · have h1 := List.mem_filter.mp hmem
      have h2 := mem_bitIdx_defmask_le x h1.1
      exact ⟨by omega, by omega⟩
  · exact fillFrom_nodup _ _ hlen (cleared_nz_nodup m) hfnodup hdisj

/-- A map with no UNKNOWN, no duplicate and in-range positions is a fixed
point of the sanitiser description. -/
lemma sanitizeSpec_of_good (l : List Nat)
    (h : ∀ x ∈ l, x ≠ 0 ∧ x ≤ 36) (hnd : l.Nodup) : sanitizeSpec l = l := by
  have hcl : clampedOf l = l := by
    unfold clampedOf
    have : ∀ x ∈ l, clampPos x = id x := by
      intro x hx
      unfold clampPos SND_CHMAP_LAST
      rw [if_neg (by have := (h x hx).2; omega)]
      rfl
    rw [List.map_congr_left this, List.map_id]
  have hcle : clearedOf l = l := by
    unfold clearedOf
    rw [hcl]
    have : ∀ x ∈ l, (fun v => if 2 ≤ l.count v then SND_CHMAP_UNKNOWN else v) x = id x := by
      intro x hx
      have := List.nodup_iff_count_le_one.mp hnd x
      simp only [id]
      rw [if_neg (by omega)]
    rw [List.map_congr_left this, List.map_id]
  unfold sanitizeSpec
  rw [hcle]
  exact fillFrom_of_no_zero _ _ (fun x hx => (h x hx).1)

/-- Sanitising a map drawn from the default layout permutes that layout. -/
lemma sanitizeSpec_perm (m : List Nat)
    (hdrawn : ∀ p ∈ m, (default_layouts.getD m.length 0).testBit p = true) :
    List.Perm (sanitizeSpec m) (bitIdx (default_layouts.getD m.length 0)) := by
  have hN : m.length ≤ 8 := by
    by_contra hc
    push_neg at hc
    have hzero : default_layouts.getD m.length 0 = 0 :=
      List.getD_eq_default _ _ (by simp [default_layouts]; omega)
    cases m with
    | nil => simp at hc
    | cons a t =>
      have := hdrawn a (List.mem_cons_self a t)
      rw [hzero] at this
      simp [Nat.zero_testBit] at this
  have hm36 : ∀ p ∈ m, p ≠ 0 ∧ p ≤ 36 := by
    intro p hp
    have hbit := hdrawn p hp
    have hmem : p ∈ bitIdx (default_layouts.getD m.length 0) := by
      rw [mem_bitIdx]
      exact ⟨testBit_lt_of_lt (Nat.lt_trans (defmask_lt m.length) (by norm_num)) hbit, hbit⟩
    have := mem_bitIdx_defmask_le p hmem
    exact ⟨by omega, by omega⟩
  have hcl : clampedOf m = m := by
    unfold clampedOf
    have : ∀ x ∈ m, clampPos x = id x := by
      intro x hx
      unfold clampPos SND_CHMAP_LAST
      rw [if_neg (by have := (hm36 x hx).2; omega)]
      rfl
    rw [List.map_congr_left this, List.map_id]
  -- the nonzero cleared entries coincide with the exactly-once default bits
  have hnzA : List.Perm ((clearedOf m).filter (fun y => y != 0))
      ((bitIdx (default_layouts.getD m.length 0)).filter
        (fun b => (clampedOf m).count b == 1)) := by
    have hnodupA : ((bitIdx (default_layouts.getD m.length 0)).filter
        (fun b => (clampedOf m).count b == 1)).Nodup := (bitIdx_nodup _).filter _
    have hsub1 : (clearedOf m).filter (fun y => y != 0) ⊆
        (bitIdx (default_layouts.getD m.length 0)).filter
          (fun b => (clampedOf m).count b == 1) := by
      intro x hx
      obtain ⟨hx0, hxm, hxc⟩ := (mem_cleared_nz_iff m x).mp hx
      refine List.mem_filter.mpr ⟨?_, by simp [hxc]⟩
      rw [mem_bitIdx]
      have hxm2 : x ∈ m := by rw [← hcl]; exact hxm
      have hbit := hdrawn x hxm2
      exact ⟨testBit_lt_of_lt (Nat.lt_trans (defmask_lt m.length) (by norm_num)) hbit, hbit⟩
    have hsub2 : (bitIdx (default_layouts.getD m.length 0)).filter
        (fun b => (clampedOf m).count b == 1) ⊆
        (clearedOf m).filter (fun y => y != 0) := by
      intro b hb
      have hmem := List.mem_filter.mp hb
      have hcnt : (clampedOf m).count b = 1 := by
        have := hmem.2
        simpa using this
      have hb0 : b ≠ 0 := by
        have := (mem_bitIdx_defmask_le b hmem.1).1
        omega
      exact (mem_cleared_nz_iff m b).mpr
        ⟨hb0, List.count_pos_iff.mp (by omega), hcnt⟩
    exact ((cleared_nz_nodup m).subperm hsub1).antisymm (hnodupA.subperm hsub2)
  -- exact count of zeros
  have hA := List.length_eq_length_filter_add
    (l := bitIdx (default_layouts.getD m.length 0))
    (fun b => (clampedOf m).count b == 1)
  have hfound : (bitIdx (default_layouts.getD m.length 0)).filter
      (fun a => !((clampedOf m).count a == 1)) = fillsOf m := by
    unfold fillsOf
    apply List.filter_congr
    intro b _
    rfl
  rw [hfound, bitIdx_defmask_length hN] at hA
  have hz := List.length_eq_length_filter_add (l := clearedOf m) (fun x => x == 0)
  have hcz : (clearedOf m).count 0 =
      ((clearedOf m).filter (fun x => x == 0)).length := by
    rw [List.count_eq_countP, List.countP_eq_length_filter]
  have hnzlen : ((clearedOf m).filter (fun a => !(a == 0))).length =
      ((clearedOf m).filter (fun y => y != 0)).length := by
    congr 1
  have hclen : (clearedOf m).length = m.length := by
    unfold clearedOf clampedOf
    simp
  have hAlen := hnzA.length_eq
  have hlen0 : (clearedOf m).count 0 = (fillsOf m).length := by omega
  -- assemble
  unfold sanitizeSpec
  refine List.Perm.trans (fillFrom_perm _ _ hlen0) ?_
  refine List.Perm.trans (List.Perm.append hnzA (List.Perm.refl (fillsOf m))) ?_
  rw [← hfound]
  exact List.filter_append_perm _ _

/-- A map whose entries are all the same position collapses to the default
layout in ascending order. -/
lemma sanitizeSpec_replicate (N v : Nat) (h2 : 2 ≤ N) (h8 : N ≤ 8) :
    sanitizeSpec (List.replicate N v) = bitIdx (default_layouts.getD N 0) := by
  have hlen : (List.replicate N v).length = N := List.length_replicate N v
  have hpc : clampedOf (List.replicate N v) = List.replicate N (clampPos v) := by
    unfold clampedOf
    exact List.map_replicate
  have hcnt : ∀ b, (clampedOf (List.replicate N v)).count b =
      if clampPos v = b then N else 0 := by
    intro b
    rw [hpc, List.count_replicate]
    by_cases hb : clampPos v = b
    · simp [hb]
    · simp [hb]
  have hcle : clearedOf (List.replicate N v) = List.replicate N 0 := by
    unfold clearedOf
    rw [hpc]
    rw [List.map_replicate]
    congr 1
    rw [hpc.symm, hcnt (clampPos v), if_pos rfl, if_pos h2]
    rfl
  have hfills : fillsOf (List.replicate N v) = bitIdx (default_layouts.getD N 0) := by
    unfold fillsOf
    rw [hlen]
    apply List.filter_eq_self.mpr
    intro b _
    rw [hcnt b]
    by_cases hb : clampPos v = b
    · rw [if_pos hb]
      simp
      omega
    · rw [if_neg hb]
      simp
  unfold sanitizeSpec
  rw [hcle, hfills]
  exact fillFrom_replicate_zero N _ (bitIdx_defmask_length h8)

/-- C5: sanitize_map clamps every out-of-range position to UNKNOWN, sets all
occurrences of every duplicated position to UNKNOWN, and fills the UNKNOWN
slots in ascending bit order from the set difference
default \ (seen \ duplicated) of the default layout for the channel count
(this is the content of sanitizeSpec); concretely the 4-channel input
[FL, FR, FR, UNKNOWN] becomes [FL, FR, RL, RR]. -/
theorem C5_sanitize_map_description :
    (∀ m : List Nat, sanitize_map m = sanitizeSpec m) ∧
    sanitize_map [SND_CHMAP_FL, SND_CHMAP_FR, SND_CHMAP_FR, SND_CHMAP_UNKNOWN] =
      [SND_CHMAP_FL, SND_CHMAP_FR, SND_CHMAP_RL, SND_CHMAP_RR] := by
  refine ⟨sanitize_map_eq_spec, ?_⟩
  rw [sanitize_map_eq_spec]
  decide

/-- C4: sanitize_map is idempotent for any channel map within the domain of
the default_layouts table; a map drawn from default_layouts[channels].mask is
sanitised to a permutation of that set; and a map whose entries are all
duplicates of one position collapses to default_layouts[N].mask in ascending
position order. -/
theorem C4_sanitize_map_algebra :
    (∀ m : List Nat, m.length ≤ 8 →
      sanitize_map (sanitize_map m) = sanitize_map m) ∧
    (∀ m : List Nat,
      (∀ p ∈ m, (default_layouts.getD m.length 0).testBit p = true) →
      List.Perm (sanitize_map m) (bitIdx (default_layouts.getD m.length 0))) ∧
    (∀ N v : Nat, 2 ≤ N → N ≤ 8 →
      sanitize_map (List.replicate N v) = bitIdx (default_layouts.getD N 0)) := by
  refine ⟨?_, ?_, ?_⟩
  · intro m hN
    rw [sanitize_map_eq_spec m, sanitize_map_eq_spec (sanitizeSpec m)]
    obtain ⟨hgood, hnodup⟩ := sanitizeSpec_good m hN
    exact sanitizeSpec_of_good _ hgood hnodup
  · intro m hdrawn
    rw [sanitize_map_eq_spec]
    exact sanitizeSpec_perm m hdrawn
  · intro N v h2 h8
    rw [sanitize_map_eq_spec]
    exact sanitizeSpec_replicate N v h2 h8

theorem C4_sanitize_map_algebra_witness :
    sanitize_map (sanitize_map [3, 4, 4, 0]) = sanitize_map [3, 4, 4, 0] ∧
    List.Perm (sanitize_map [3, 4]) (bitIdx (default_layouts.getD 2 0)) ∧
    sanitize_map (List.replicate 4 7) = bitIdx (default_layouts.getD 4 0) :=
  ⟨C4_sanitize_map_algebra.1 [3, 4, 4, 0] (by decide),
   C4_sanitize_map_algebra.2.1 [3, 4] (by decide),
   C4_sanitize_map_algebra.2.2 4 7 (by decide) (by decide)⟩

/-- C1: for a frame handled by the dispatch loop while the client is not busy:
a missing resource produces an EINVAL error reply and processing continues
with the next frame; an opcode at or beyond the method count produces an
EINVAL error and destroys the client; a failed permission check (required =
method permissions | X not contained in the resource permissions) produces an
EACCES error reply, leaves the client alive with recv_seq advanced to the
frame's seq, and processing continues; a negative demarshal result destroys
the client. -/
theorem C1_process_messages_errors :
    ∀ (st : ClientState) (msg : Frame) (rest : List Frame), st.busy = false →
    (findResource st.resources msg.id = none →
      processMessages st (msg :: rest) =
        ((processMessages { st with recvSeq := msg.seq } rest).1,
          PEvent.coreErrorReply (-EINVAL) ::
            (processMessages { st with recvSeq := msg.seq } rest).2)) ∧
    (∀ r, findResource st.resources msg.id = some r →
      r.methods.length ≤ msg.opcode →
      processMessages st (msg :: rest) =
        ({ st with recvSeq := msg.seq, destroyed := true },
          [PEvent.errorReply r.id (-EINVAL), PEvent.destroyClient])) ∧
    (∀ r mth, findResource st.resources msg.id = some r →
      r.hasMarshal = true → r.methods[msg.opcode]? = some mth → mth.hasFunc = true →
      (mth.permissions ||| PW_PERM_X) &&& r.permissions ≠
        mth.permissions ||| PW_PERM_X →
      processMessages st (msg :: rest) =
        ((processMessages { st with recvSeq := msg.seq } rest).1,
          PEvent.errorReply r.id (-EACCES) ::
            (processMessages { st with recvSeq := msg.seq } rest).2) ∧
      (processStep st msg).1.destroyed = st.destroyed ∧
      (processStep st msg).1.recvSeq = msg.seq ∧
      (processStep st msg).2.2 = true) ∧
    (∀ r mth, findResource st.resources msg.id = some r →
      r.hasMarshal = true → r.methods[msg.opcode]? = some mth → mth.hasFunc = true →
      (mth.permissions ||| PW_PERM_X) &&& r.permissions =
        mth.permissions ||| PW_PERM_X →
      msg.demarshalRet < 0 →
      (processMessages st (msg :: rest)).1.destroyed = true ∧
      PEvent.destroyClient ∈ (processMessages st (msg :: rest)).2) := by
  intro st msg rest hbusy
  refine ⟨?_, ?_, ?_, ?_⟩
  · intro hfind
    rw [processMessages]
    simp [processStep, hfind, hbusy]
  · intro r hfind hop
    rw [processMessages]
    simp only [processStep, hfind]
    rw [if_pos (Or.inr hop)]
    simp [hbusy]
  · intro r mth hfind hmar hget hfunc hperm
    have hlt : msg.opcode < r.methods.length := by
      obtain ⟨hlt, _⟩ := List.getElem?_eq_some_iff.mp hget
      exact hlt
    have hop : ¬(¬r.hasMarshal ∨ r.methods.length ≤ msg.opcode) := by
      push_neg
      exact ⟨by simp [hmar], by omega⟩
    refine ⟨?_, ?_, ?_, ?_⟩
    · rw [processMessages]
      simp only [processStep, hfind, hget]
      rw [if_neg hop]
      simp [hfunc, hperm, hbusy]
    · simp only [processStep, hfind, hget]
      rw [if_neg hop]
      simp [hfunc, hperm]
    · simp only [processStep, hfind, hget]
      rw [if_neg hop]
      simp [hfunc, hperm]
    · simp only [processStep, hfind, hget]
      rw [if_neg hop]
      simp [hfunc, hperm]
  · intro r mth hfind hmar hget hfunc hperm hneg
    have hlt : msg.opcode < r.methods.length := by
      obtain ⟨hlt, _⟩ := List.getElem?_eq_some_iff.mp hget
      exact hlt
    have hop : ¬(¬r.hasMarshal ∨ r.methods.length ≤ msg.opcode) := by
      push_neg
      exact ⟨by simp [hmar], by omega⟩
    rw [processMessages]
    simp only [processStep, hfind, hget]
    rw [if_neg hop]
    simp [hfunc, hperm, hneg, hbusy]

/-- Every value pushed by the format loop is an interleaved table code (with
interleaved access) or a non-UNKNOWN planar table code (with non-interleaved
access) of one of the walked rows. -/
lemma mem_fmt_loop : ∀ (l : List FormatInfo) (j : Nat) (caps : AlsaCaps) (F : Nat),
    F ∈ fmt_loop caps l j →
    ∃ fi ∈ l, (caps.accessInterleaved = true ∧ F = fi.spa_format) ∨
      (caps.accessNonInterleaved = true ∧ fi.spa_pformat ≠ SPA_AUDIO_FORMAT_UNKNOWN ∧
        F = fi.spa_pformat) := by
  intro l
  induction l with
  | nil =>
    intro j caps F h
    rw [fmt_loop] at h
    cases h
  | cons fi rest ih =>
    intro j caps F h
    rw [fmt_loop] at h
    by_cases hfm : caps.fmask.contains fi.format = true
    · rw [if_pos hfm] at h
      dsimp only at h
      rcases List.mem_append.mp h with h12 | h3
      · rcases List.mem_append.mp h12 with h1 | h2
        · by_cases hi : caps.accessInterleaved = true
          · rw [if_pos hi] at h1
            have hF : F = fi.spa_format := by
              by_cases hj : j = 0
              · rw [if_pos hj] at h1
                simpa using h1
              · rw [if_neg hj] at h1
                simpa using h1
            exact ⟨fi, List.mem_cons_self fi rest, Or.inl ⟨hi, hF⟩⟩
          · rw [if_neg hi] at h1
            cases h1
        · by_cases hn : caps.accessNonInterleaved = true ∧
              fi.spa_pformat ≠ SPA_AUDIO_FORMAT_UNKNOWN
          · rw [if_pos hn] at h2
            have hF : F = fi.spa_pformat := by
              by_cases hj : (if caps.accessInterleaved = true then j + 1 else j) = 0
              · rw [if_pos hj] at h2
                simpa using h2
              · rw [if_neg hj] at h2
                simpa using h2
            exact ⟨fi, List.mem_cons_self fi rest, Or.inr ⟨hn.1, hn.2, hF⟩⟩
          · rw [if_neg hn] at h2
            cases h2
      · obtain ⟨fi2, hfi2, hor⟩ := ih _ _ _ h3
        exact ⟨fi2, List.mem_cons_of_mem _ hfi2, hor⟩
    · rw [if_neg hfm] at h
      obtain ⟨fi2, hfi2, hor⟩ := ih _ _ _ h
      exact ⟨fi2, List.mem_cons_of_mem _ hfi2, hor⟩

lemma table_interleaved_known :
    ∀ fi ∈ format_info.drop 1, spa_format_to_alsa fi.spa_format ≠ SND_PCM_FORMAT_UNKNOWN := by
  decide

lemma table_planar_unknown :
    ∀ fi ∈ format_info, fi.spa_pformat ≠ SPA_AUDIO_FORMAT_UNKNOWN →
      spa_format_to_alsa fi.spa_pformat = SND_PCM_FORMAT_UNKNOWN := by
  decide

/-- C2 counterexample: a device supporting only MMAP_NONINTERLEAVED float
makes spa_alsa_enum_format emit the planar F32P code, and spa_format_to_alsa
maps that emitted code to SND_PCM_FORMAT_UNKNOWN, contradicting the claim
that every emitted format maps to a known ALSA format. -/
theorem C2_enum_format_counterexample :
    SPA_AUDIO_FORMAT_F32P ∈ build_format_values
      ⟨[SND_PCM_FORMAT_FLOAT_LE], false, true, 8000, 48000, 1, 2⟩ ∧
    spa_format_to_alsa SPA_AUDIO_FORMAT_F32P = SND_PCM_FORMAT_UNKNOWN := by
  decide

/-- C2 (amended): every format code emitted in the format choice of
spa_alsa_enum_format is either the interleaved spa_format of a table row, in
which case spa_format_to_alsa maps it to a known (non-UNKNOWN) ALSA format,
or the planar spa_pformat of a table row, in which case spa_format_to_alsa
maps it to SND_PCM_FORMAT_UNKNOWN (the lookup only searches the interleaved
column). -/
theorem C2_enum_format_to_alsa (caps : AlsaCaps) (F : Nat)
    (hF : F ∈ build_format_values caps) :
    (∃ fi ∈ format_info.drop 1, F = fi.spa_format ∧ caps.accessInterleaved = true ∧
      spa_format_to_alsa F ≠ SND_PCM_FORMAT_UNKNOWN) ∨
    (∃ fi ∈ format_info.drop 1, F = fi.spa_pformat ∧ caps.accessNonInterleaved = true ∧
      spa_format_to_alsa F = SND_PCM_FORMAT_UNKNOWN) := by
  obtain ⟨fi, hfi, hor⟩ := mem_fmt_loop (format_info.drop 1) 0 caps F hF
  rcases hor with ⟨hi, hFeq⟩ | ⟨hn, hne, hFeq⟩
  · exact Or.inl ⟨fi, hfi, hFeq, hi, hFeq ▸ table_interleaved_known fi hfi⟩
  · refine Or.inr ⟨fi, hfi, hFeq, hn, ?_⟩
    rw [hFeq]
    exact table_planar_unknown fi (List.mem_of_mem_drop hfi) hne

theorem C2_enum_format_to_alsa_witness :
    (∃ fi ∈ format_info.drop 1, SPA_AUDIO_FORMAT_F32P = fi.spa_pformat ∧
      true = true ∧ spa_format_to_alsa SPA_AUDIO_FORMAT_F32P = SND_PCM_FORMAT_UNKNOWN) ∨
    (∃ fi ∈ format_info.drop 1, SPA_AUDIO_FORMAT_F32P = fi.spa_format ∧
      true = true ∧ spa_format_to_alsa SPA_AUDIO_FORMAT_F32P ≠ SND_PCM_FORMAT_UNKNOWN) :=
  (C2_enum_format_to_alsa ⟨[SND_PCM_FORMAT_FLOAT_LE], false, true, 8000, 48000, 1, 2⟩
    SPA_AUDIO_FORMAT_F32P (by decide)).elim
    (fun ⟨fi, hfi, h1, h2, h3⟩ => Or.inr ⟨fi, hfi, h1, rfl, h3⟩)
    (fun ⟨fi, hfi, h1, h2, h3⟩ => Or.inl ⟨fi, hfi, h1, rfl, h3⟩)

/-- C10: spa_alsa_enum_format emits at most the index-0 descriptor: a call
with start > 0 emits nothing, and a call with start = 0 emits the index-0
descriptor exactly when the filter accepts it, ending the enumeration
regardless of num (the chmap path is compiled out and every index > 0 jumps
to enum_end). -/
theorem C10_enum_format_single_result :
    ∀ (caps : AlsaCaps) (filterOk : FormatDesc → Bool) (start num : Nat),
      (start > 0 → spa_alsa_enum_format caps filterOk start num = []) ∧
      (spa_alsa_enum_format caps filterOk start num).length ≤ 1 ∧
      (start = 0 → spa_alsa_enum_format caps filterOk start num =
        if filterOk (buildDesc caps) then [(0, buildDesc caps)] else []) := by
  intro caps filterOk start num
  have hstop : ∀ c, enum_loop caps filterOk num 1 c = [] := by
    intro c
    rw [enum_loop]
    simp
  have hzero : spa_alsa_enum_format caps filterOk 0 num =
      if filterOk (buildDesc caps) then [(0, buildDesc caps)] else [] := by
    unfold spa_alsa_enum_format
    rw [enum_loop]
    simp only [gt_iff_lt, Nat.lt_irrefl, if_false]
    by_cases hf : filterOk (buildDesc caps) = true
    · rw [if_neg (by simp [hf]), if_pos hf]
      simp only [Nat.zero_add]
      by_cases hn : 1 ≠ num
      · rw [if_pos hn, hstop 1]
      · rw [if_neg hn]
    · rw [if_pos (by simp [hf])]
      simp only [Nat.zero_add]
      rw [hstop 0, if_neg hf]
  refine ⟨?_, ?_, ?_⟩
  · intro hs
    unfold spa_alsa_enum_format
    rw [enum_loop, if_pos hs]
  · cases start with
    | zero =>
      rw [hzero]
      by_cases hf : filterOk (buildDesc caps) = true <;> simp [hf]
    | succ k =>
      unfold spa_alsa_enum_format
      rw [enum_loop, if_pos (Nat.succ_pos k)]
      simp
  · intro hs
    rw [hs]
    exact hzero

theorem C10_enum_format_single_result_witness :
    spa_alsa_enum_format ⟨[SND_PCM_FORMAT_S16_LE], true, false, 8000, 48000, 1, 2⟩
      (fun _ => true) 3 7 = [] ∧
    spa_alsa_enum_format ⟨[SND_PCM_FORMAT_S16_LE], true, false, 8000, 48000, 1, 2⟩
      (fun _ => true) 0 7 =
      [(0, buildDesc ⟨[SND_PCM_FORMAT_S16_LE], true, false, 8000, 48000, 1, 2⟩)] :=
  ⟨(C10_enum_format_single_result _ _ 3 7).1 (by omega),
   ((C10_enum_format_single_result ⟨[SND_PCM_FORMAT_S16_LE], true, false, 8000, 48000, 1, 2⟩
      (fun _ => true) 0 7).2.2 rfl).trans (if_pos rfl)⟩

/-- C7: in spa_alsa_set_format, with the format known, a granted channel count
or rate differing from the requested one fails with -EINVAL unless the
NEAREST flag is set, in which case the granted value overwrites the request
and the call proceeds; with both granted values matching, the info is
returned unchanged. -/
theorem C7_set_format_nearest :
    ∀ (info : AudioInfoRaw) (flags : Nat) (dev : NearGrant),
      spa_format_to_alsa info.format ≠ SND_PCM_FORMAT_UNKNOWN →
      ((flags &&& SPA_NODE_PARAM_FLAG_NEAREST ≠ 0 →
        spa_alsa_set_format info flags dev =
          Except.ok ⟨info.format, dev.grantedRate, dev.grantedChannels⟩) ∧
      (flags &&& SPA_NODE_PARAM_FLAG_NEAREST = 0 →
        dev.grantedChannels ≠ info.channels →
        spa_alsa_set_format info flags dev = Except.error (-EINVAL)) ∧
      (flags &&& SPA_NODE_PARAM_FLAG_NEAREST = 0 →
        dev.grantedChannels = info.channels →
        dev.grantedRate ≠ info.rate →
        spa_alsa_set_format info flags dev = Except.error (-EINVAL)) ∧
      (dev.grantedChannels = info.channels → dev.grantedRate = info.rate →
        spa_alsa_set_format info flags dev = Except.ok info)) := by
  intro info flags dev hfmt
  unfold spa_alsa_set_format set_format_channels set_format_rate
  rw [if_neg hfmt]
  refine ⟨?_, ?_, ?_, ?_⟩
  · intro hnear
    by_cases hch : dev.grantedChannels ≠ info.channels
    · rw [if_pos hch, if_pos hnear]
      by_cases hrt : dev.grantedRate ≠ info.rate
      · rw [if_pos hrt, if_pos hnear]
      · rw [if_neg hrt]
        push_neg at hrt
        rw [hrt]
    · rw [if_neg hch]
      push_neg at hch
      by_cases hrt : dev.grantedRate ≠ info.rate
      · rw [if_pos hrt, if_pos hnear]
        rw [hch]
      · rw [if_neg hrt]
        push_neg at hrt
        rw [hch, hrt]
  · intro hnear hch
    rw [if_pos hch, if_neg (by simp [hnear])]
  · intro hnear hch hrt
    rw [if_neg (by simp [hch]), if_pos hrt, if_neg (by simp [hnear])]
  · intro hch hrt
    rw [if_neg (by simp [hch]), if_neg (by simp [hrt])]

theorem C7_set_format_nearest_witness :
    spa_alsa_set_format ⟨SPA_AUDIO_FORMAT_S16_LE, 44100, 2⟩ SPA_NODE_PARAM_FLAG_NEAREST
      ⟨2, 48000⟩ = Except.ok ⟨SPA_AUDIO_FORMAT_S16_LE, 48000, 2⟩ ∧
    spa_alsa_set_format ⟨SPA_AUDIO_FORMAT_S16_LE, 44100, 2⟩ 0 ⟨2, 48000⟩ =
      Except.error (-EINVAL) :=
  ⟨(C7_set_format_nearest ⟨SPA_AUDIO_FORMAT_S16_LE, 44100, 2⟩
      SPA_NODE_PARAM_FLAG_NEAREST ⟨2, 48000⟩ (by decide)).1 (by decide),
   (C7_set_format_nearest ⟨SPA_AUDIO_FORMAT_S16_LE, 44100, 2⟩ 0 ⟨2, 48000⟩
      (by decide)).2.2.1 (by decide) (by decide) (by decide)⟩

/-- C8: with the threshold refreshed from position->size, the playback handler
on delay >= 2 * threshold only reschedules next_time to
now + (threshold / 2) * NSEC_PER_SEC / rate, and the capture handler on
delay < threshold only reschedules next_time to
now + (threshold - delay) * NSEC_PER_SEC / rate; neither transfers (the
returned state differs only in threshold and next_time). -/
theorem C8_timeout_early_wakeup :
    ∀ (st : TimeoutState) (nsec : Nat) (delay : Int) (th : Nat),
      th = (match st.positionSize with | some sz => sz | none => st.threshold) →
      (delay ≥ (th : Int) * 2 →
        handle_play st nsec delay = (TimeoutAction.earlyWakeup,
          { st with threshold := th,
                    next_time := nsec + th / 2 * SPA_NSEC_PER_SEC / st.rate })) ∧
      (0 ≤ delay → delay < (th : Int) →
        handle_capture st nsec delay = (TimeoutAction.earlyWakeup,
          { st with threshold := th,
                    next_time := nsec + (th - delay.toNat) * SPA_NSEC_PER_SEC / st.rate })) := by
  intro st nsec delay th hth
  obtain ⟨t, r, p, nt, sc⟩ := st
  constructor
  · intro hd
    unfold handle_play
    cases p with
    | none =>
      simp only at hth
      subst hth
      simp only []
      rw [if_pos hd]
    | some sz =>
      simp only at hth
      subst hth
      by_cases hne : t ≠ th
      · simp only [if_pos hne]
        rw [if_pos hd]
      · push_neg at hne
        subst hne
        simp only [ne_eq, not_true_eq_false, if_neg, ite_false]
        rw [if_pos hd]
  · intro h0 hlt
    unfold handle_capture
    cases p with
    | none =>
      simp only at hth
      subst hth
      simp only []
      rw [if_pos hlt]
      have hcast : (((th : Int) - delay) * (SPA_NSEC_PER_SEC : Int) / (r : Int)).toNat
          = (th - delay.toNat) * SPA_NSEC_PER_SEC / r := by
        have h1 : (th : Int) - delay = ((th - delay.toNat : Nat) : Int) := by omega
        rw [h1]
        rfl
      rw [hcast]
    | some sz =>
      simp only at hth
      subst hth
      simp only []
      rw [if_pos hlt]
      have hcast : (((th : Int) - delay) * (SPA_NSEC_PER_SEC : Int) / (r : Int)).toNat
          = (th - delay.toNat) * SPA_NSEC_PER_SEC / r := by
        have h1 : (th : Int) - delay = ((th - delay.toNat : Nat) : Int) := by omega
        rw [h1]
        rfl
      rw [hcast]

theorem C8_timeout_early_wakeup_witness :
    handle_play ⟨1024, 48000, none, 0, 0⟩ 5000000 2048 =
      (TimeoutAction.earlyWakeup,
        ⟨1024, 48000, none, 5000000 + 1024 / 2 * SPA_NSEC_PER_SEC / 48000, 0⟩) ∧
    handle_capture ⟨1024, 48000, none, 0, 0⟩ 5000000 1000 =
      (TimeoutAction.earlyWakeup,
        ⟨1024, 48000, none, 5000000 + (1024 - 1000) * SPA_NSEC_PER_SEC / 48000, 0⟩) :=
  ⟨(C8_timeout_early_wakeup ⟨1024, 48000, none, 0, 0⟩ 5000000 2048 1024 rfl).1
      (by decide),
   (C8_timeout_early_wakeup ⟨1024, 48000, none, 0, 0⟩ 5000000 1000 1024 rfl).2
      (by decide) (by decide)⟩

/-- C3: evaluation of both flush sites at a partial write (flush = -EAGAIN).
The pre-poll hook keeps the client and arms IO_OUT, and a drain in the io
handler clears IO_OUT, as the claim says; but the io handler's IO_OUT branch
compares the result against positive EAGAIN, so a partial write there
destroys the client, contradicting the claim. -/
theorem C3_flush_again_behaviour :
    (connection_data ⟨SPA_IO_OUT, false⟩ SPA_IO_OUT (-EAGAIN)).destroyed = true ∧
    (on_before_hook_client ⟨0, false⟩ (-EAGAIN)).destroyed = false ∧
    (on_before_hook_client ⟨0, false⟩ (-EAGAIN)).ioMask &&& SPA_IO_OUT ≠ 0 ∧
    (on_before_hook_client ⟨0, false⟩ (-5)).destroyed = true ∧
    (connection_data ⟨SPA_IO_OUT, false⟩ SPA_IO_OUT 0).ioMask &&& SPA_IO_OUT = 0 ∧
    (connection_data ⟨SPA_IO_OUT, false⟩ SPA_IO_OUT 0).destroyed = false ∧
    (connection_data ⟨SPA_IO_OUT, false⟩ SPA_IO_OUT (-5)).destroyed = true := by
  decide

/-- C6: when the exclusive flock on the sidecar lock file fails, server
creation fails, bind and listen are never attempted, and the teardown of the
failed server unlinks no path (neither the socket nor the lock file of the
running owner). -/
theorem C6_lock_failure_no_bind_no_unlink :
    ∀ (env : SrvEnv) (name : String),
      env.haveRuntimeDir = true → env.nameFits = true →
      env.openLockOk = true → env.flockOk = false →
      (impl_add_server env name).1 = none ∧
      SrvEvent.flockTry ∈ (impl_add_server env name).2 ∧
      SrvEvent.bindSocket ∉ (impl_add_server env name).2 ∧
      SrvEvent.listenSocket ∉ (impl_add_server env name).2 ∧
      (∀ p, SrvEvent.unlinkPath p ∉ (impl_add_server env name).2) := by
  intro env name h1 h2 h3 h4
  obtain ⟨e1, e2, e3, e4, e5, e6, e7, e8, e9⟩ := env
  simp only at h1 h2 h3 h4
  subst h1
  subst h2
  subst h3
  subst h4
  simp [impl_add_server, init_socket_name, lock_socket, destroy_server]

theorem C6_lock_failure_no_bind_no_unlink_witness :
    (impl_add_server ⟨true, true, true, false, false, true, true, true, true⟩
      "pipewire-0").1 = none ∧
    SrvEvent.flockTry ∈ (impl_add_server
      ⟨true, true, true, false, false, true, true, true, true⟩ "pipewire-0").2 ∧
    SrvEvent.bindSocket ∉ (impl_add_server
      ⟨true, true, true, false, false, true, true, true, true⟩ "pipewire-0").2 ∧
    SrvEvent.listenSocket ∉ (impl_add_server
      ⟨true, true, true, false, false, true, true, true, true⟩ "pipewire-0").2 ∧
    (∀ p, SrvEvent.unlinkPath p ∉ (impl_add_server
      ⟨true, true, true, false, false, true, true, true, true⟩ "pipewire-0").2) :=
  C6_lock_failure_no_bind_no_unlink
    ⟨true, true, true, false, false, true, true, true, true⟩ "pipewire-0"
    rfl rfl rfl rfl

/-- C9 counterexample: an UPDATE_INFO call whose info carries change_mask = 0
still rewrites the stored name, media_class, direction and flags whenever the
stored name is unset, so "all other stored fields are left unchanged" fails
as stated. -/
theorem C9_update_counterexample :
    (endpoint_update
      ⟨[], ⟨0, 0, [], [], none, none, 0, 0, 0⟩, []⟩
      ⟨PW_CLIENT_ENDPOINT_UPDATE_INFO, [], ⟨5, 6, [], [], some "n", some "m", 1, 7, 0⟩⟩).1.info.name ≠
      (⟨[], ⟨0, 0, [], [], none, none, 0, 0, 0⟩, []⟩ : Endpoint).info.name ∧
    (endpoint_update
      ⟨[], ⟨0, 0, [], [], none, none, 0, 0, 0⟩, []⟩
      ⟨PW_CLIENT_ENDPOINT_UPDATE_INFO, [], ⟨5, 6, [], [], some "n", some "m", 1, 7, 0⟩⟩).1.info.direction ≠
      (⟨[], ⟨0, 0, [], [], none, none, 0, 0, 0⟩, []⟩ : Endpoint).info.direction ∧
    (⟨5, 6, [], [], some "n", some "m", 1, 7, 0⟩ : EndpointInfo).change_mask = 0 := by
  decide

/-- C9 (amended): in endpoint_update and session_update with UPDATE_INFO set,
each stored info field (n_streams, session_id, props, params) changes exactly
when its individual change-bit is set; the other stored fields are unchanged
except that name, media_class, direction and flags are initialised from the
incoming info when the stored name is still unset; the info event carrying
info->change_mask is emitted exactly once to every bound resource, and the
stored change_mask is reset to 0 after emission, as it also is after the
initial emission on bind. -/
theorem C9_update_info_semantics :
    (∀ (e : Endpoint) (a : EndpointUpdateArgs),
      a.change_mask &&& PW_CLIENT_ENDPOINT_UPDATE_INFO ≠ 0 →
      ((a.info.change_mask &&& PW_ENDPOINT_CHANGE_MASK_STREAMS = 0 →
        (endpoint_update e a).1.info.n_streams = e.info.n_streams) ∧
      (a.info.change_mask &&& PW_ENDPOINT_CHANGE_MASK_STREAMS ≠ 0 →
        (endpoint_update e a).1.info.n_streams = a.info.n_streams) ∧
      (a.info.change_mask &&& PW_ENDPOINT_CHANGE_MASK_SESSION = 0 →
        (endpoint_update e a).1.info.session_id = e.info.session_id) ∧
      (a.info.change_mask &&& PW_ENDPOINT_CHANGE_MASK_SESSION ≠ 0 →
        (endpoint_update e a).1.info.session_id = a.info.session_id) ∧
      (a.info.change_mask &&& PW_ENDPOINT_CHANGE_MASK_PROPS = 0 →
        (endpoint_update e a).1.info.props = e.info.props) ∧
      (a.info.change_mask &&& PW_ENDPOINT_CHANGE_MASK_PROPS ≠ 0 →
        (endpoint_update e a).1.info.props = props_update e.info.props a.info.props) ∧
      (a.info.change_mask &&& PW_ENDPOINT_CHANGE_MASK_PARAMS = 0 →
        (endpoint_update e a).1.info.params = e.info.params) ∧
      (a.info.change_mask &&& PW_ENDPOINT_CHANGE_MASK_PARAMS ≠ 0 →
        (endpoint_update e a).1.info.params = a.info.params) ∧
      (e.info.name ≠ none →
        (endpoint_update e a).1.info.name = e.info.name ∧
        (endpoint_update e a).1.info.media_class = e.info.media_class ∧
        (endpoint_update e a).1.info.direction = e.info.direction ∧
        (endpoint_update e a).1.info.flags = e.info.flags) ∧
      (endpoint_update e a).2 =
        e.bound.map (fun rid => InfoEmit.mk rid a.info.change_mask) ∧
      (endpoint_update e a).1.info.change_mask = 0)) ∧
    (∀ (e : Endpoint) (rid : Nat),
      (endpoint_bind e rid).2 = [InfoEmit.mk rid PW_ENDPOINT_CHANGE_MASK_ALL] ∧
      (endpoint_bind e rid).1.info.change_mask = 0) ∧
    (∀ (s : Session) (a : SessionUpdateArgs),
      a.change_mask &&& PW_CLIENT_SESSION_UPDATE_INFO ≠ 0 →
      ((a.info.change_mask &&& PW_SESSION_CHANGE_MASK_PROPS = 0 →
        (session_update s a).1.info.props = s.info.props) ∧
      (a.info.change_mask &&& PW_SESSION_CHANGE_MASK_PROPS ≠ 0 →
        (session_update s a).1.info.props = props_update s.info.props a.info.props) ∧
      (a.info.change_mask &&& PW_SESSION_CHANGE_MASK_PARAMS = 0 →
        (session_update s a).1.info.params = s.info.params) ∧
      (a.info.change_mask &&& PW_SESSION_CHANGE_MASK_PARAMS ≠ 0 →
        (session_update s a).1.info.params = a.info.params) ∧
      (session_update s a).2 =
        s.bound.map (fun rid => InfoEmit.mk rid a.info.change_mask) ∧
      (session_update s a).1.info.change_mask = 0)) := by
  refine ⟨?_, ?_, ?_⟩
  · intro e a hinfo
    unfold endpoint_update
    by_cases hp : a.change_mask &&& PW_CLIENT_ENDPOINT_UPDATE_PARAMS ≠ 0 <;>
      simp only [hp, if_true, if_false, ite_true, ite_false, if_pos, if_neg] <;>
      rw [if_pos hinfo] <;>
      (by_cases h1 : a.info.change_mask &&& PW_ENDPOINT_CHANGE_MASK_STREAMS = 0 <;>
       by_cases h2 : a.info.change_mask &&& PW_ENDPOINT_CHANGE_MASK_SESSION = 0 <;>
       by_cases h3 : a.info.change_mask &&& PW_ENDPOINT_CHANGE_MASK_PROPS = 0 <;>
       by_cases h4 : a.info.change_mask &&& PW_ENDPOINT_CHANGE_MASK_PARAMS = 0 <;>
       by_cases h5 : e.info.name = none <;>
       simp_all)
  · intro e rid
    unfold endpoint_bind
    exact ⟨rfl, rfl⟩
  · intro s a hinfo
    unfold session_update
    by_cases hp : a.change_mask &&& PW_CLIENT_SESSION_UPDATE_PARAMS ≠ 0 <;>
      simp only [hp, if_true, if_false, ite_true, ite_false, if_pos, if_neg] <;>
      rw [if_pos hinfo] <;>
      (by_cases h1 : a.info.change_mask &&& PW_SESSION_CHANGE_MASK_PROPS = 0 <;>
       by_cases h2 : a.info.change_mask &&& PW_SESSION_CHANGE_MASK_PARAMS = 0 <;>
       simp_all)

theorem C9_update_info_semantics_witness :
    ((endpoint_update ⟨[], ⟨1, 2, [], [], some "x", some "y", 3, 4, 0⟩, [8, 9]⟩
        ⟨PW_CLIENT_ENDPOINT_UPDATE_INFO, [],
          ⟨5, 6, [], [7], none, none, 0, 0, PW_ENDPOINT_CHANGE_MASK_STREAMS⟩⟩).1.info.n_streams = 5) ∧
    ((endpoint_update ⟨[], ⟨1, 2, [], [], some "x", some "y", 3, 4, 0⟩, [8, 9]⟩
        ⟨PW_CLIENT_ENDPOINT_UPDATE_INFO, [],
          ⟨5, 6, [], [7], none, none, 0, 0, PW_ENDPOINT_CHANGE_MASK_STREAMS⟩⟩).1.info.session_id = 2) ∧
    ((endpoint_update ⟨[], ⟨1, 2, [], [], some "x", some "y", 3, 4, 0⟩, [8, 9]⟩
        ⟨PW_CLIENT_ENDPOINT_UPDATE_INFO, [],
          ⟨5, 6, [], [7], none, none, 0, 0, PW_ENDPOINT_CHANGE_MASK_STREAMS⟩⟩).1.info.name = some "x") ∧
    ((endpoint_update ⟨[], ⟨1, 2, [], [], some "x", some "y", 3, 4, 0⟩, [8, 9]⟩
        ⟨PW_CLIENT_ENDPOINT_UPDATE_INFO, [],
          ⟨5, 6, [], [7], none, none, 0, 0, PW_ENDPOINT_CHANGE_MASK_STREAMS⟩⟩).2 =
        [InfoEmit.mk 8 PW_ENDPOINT_CHANGE_MASK_STREAMS,
         InfoEmit.mk 9 PW_ENDPOINT_CHANGE_MASK_STREAMS]) ∧
    ((endpoint_update ⟨[], ⟨1, 2, [], [], some "x", some "y", 3, 4, 0⟩, [8, 9]⟩
        ⟨PW_CLIENT_ENDPOINT_UPDATE_INFO, [],
          ⟨5, 6, [], [7], none, none, 0, 0, PW_ENDPOINT_CHANGE_MASK_STREAMS⟩⟩).1.info.change_mask = 0) := by
  have h := (C9_update_info_semantics.1
    ⟨[], ⟨1, 2, [], [], some "x", some "y", 3, 4, 0⟩, [8, 9]⟩
    ⟨PW_CLIENT_ENDPOINT_UPDATE_INFO, [],
      ⟨5, 6, [], [7], none, none, 0, 0, PW_ENDPOINT_CHANGE_MASK_STREAMS⟩⟩ (by decide))
  refine ⟨h.2.1 (by decide), h.2.2.1 (by decide), (h.2.2.2.2.2.2.2.2.1 (by decide)).1, ?_, h.2.2.2.2.2.2.2.2.2.2⟩
  have h2 := h.2.2.2.2.2.2.2.2.2.1
  simpa using h2

theorem C1_process_messages_errors_witness :
    processMessages ⟨[⟨5, 1, true, [⟨2, true⟩]⟩], false, 0, false⟩ [⟨5, 0, 42, 0, false⟩] =
      ((processMessages ⟨[⟨5, 1, true, [⟨2, true⟩]⟩], false, 42, false⟩ []).1,
        PEvent.errorReply 5 (-EACCES) ::
          (processMessages ⟨[⟨5, 1, true, [⟨2, true⟩]⟩], false, 42, false⟩ []).2) ∧
    (processStep ⟨[⟨5, 1, true, [⟨2, true⟩]⟩], false, 0, false⟩
      ⟨5, 0, 42, 0, false⟩).1.recvSeq = 42 := by
  have h := (C1_process_messages_errors ⟨[⟨5, 1, true, [⟨2, true⟩]⟩], false, 0, false⟩
    ⟨5, 0, 42, 0, false⟩ [] rfl).2.2.1 ⟨5, 1, true, [⟨2, true⟩]⟩ ⟨2, true⟩
    (by decide) rfl (by decide) rfl (by decide)
  exact ⟨h.1, h.2.2.1⟩
